import Mathlib

/-!
# Echo server (`src/main.c`): signal bridge, flag servicing and the main loop

The C program is embedded as explicit state passing.  The process state is the
record `State` (the globals of `main.c` plus the observable effects of the
library calls: bytes written to `stdout`, arguments given to `alarm`, handles
opened and closed).  Everything the operating system decides (signal delivery,
the result of `open`, `read`, `close`, `unlink`, `fork`, `setsid`, `freopen`)
is input: a list of `Event`s and one `DaemonEnv`.

The main loop is a step function over control points (`Ctl`): the process is
always waiting inside one system call, and an event either runs the signal
handler or gives the result of that call, after which the C code between that
call and the next one is executed.  A signal can be delivered at every control
point of a running process: inside `open`, `read`, `close` and `unlink`.

Unsigned 64-bit quantities (`atomic_ullong` counters, `size_t total_read`) are
natural numbers reduced modulo `2 ^ 64` after every update.
-/

namespace EchoServer

/-! ## Constants -/

/-- Value of `ALARM_TIME` (line 14). -/
def ALARM_TIME : Int := 15

/-- Value of `BUFFER_SIZE` (line 15). -/
def BUFFER_SIZE : Nat := 1024

/-- Value of `EXIT_SUCCESS` from `stdlib.h`. -/
def EXIT_SUCCESS : Int := 0

/-- Value of `EXIT_FAILURE` from `stdlib.h`. -/
def EXIT_FAILURE : Int := 1

/-- Linux value of `SIGHUP` from `signal.h`. -/
def SIGHUP : Int := 1

/-- Linux value of `SIGINT` from `signal.h`. -/
def SIGINT : Int := 2

/-- Linux value of `SIGQUIT` from `signal.h`. -/
def SIGQUIT : Int := 3

/-- Linux value of `SIGUSR1` from `signal.h`. -/
def SIGUSR1 : Int := 10

/-- Linux value of `SIGALRM` from `signal.h`. -/
def SIGALRM : Int := 14

/-- Linux value of `SIGTERM` from `signal.h`. -/
def SIGTERM : Int := 15

/-- Number of values of `unsigned long long` and of `size_t`. -/
def WORD : Nat := 2 ^ 64

/-- The byte of the line terminator, `'\n'`. -/
def NL : Nat := 10

/-! ## Process state -/

/-- Globals of `main.c` (lines 19 to 30) and the effects of the library calls. -/
structure State where
  /-- Global `alarm_time` (line 19). -/
  alarm_time : Int
  /-- Global `is_daemon` (line 21). -/
  is_daemon : Bool
  /-- Global `exit_mode` (line 23). -/
  exit_mode : Int
  /-- Global `alarm_flag` (line 24). -/
  alarm_flag : Int
  /-- Global `sigusr_flag` (line 25). -/
  sigusr_flag : Int
  /-- Global `sighup_flag` (line 26). -/
  sighup_flag : Int
  /-- Global `msg_count` (line 28), below `WORD`. -/
  msg_count : Nat
  /-- Global `bytes_count` (line 29), below `WORD`. -/
  bytes_count : Nat
  /-- Global `alarm_count` (line 30), below `WORD`. -/
  alarm_count : Nat
  /-- Bytes written to the stream `stdout`, oldest first. -/
  out : List Nat
  /-- Arguments of the calls of `alarm`, oldest first. -/
  alarms : List Int
  /-- Number of calls of `daemonize`. -/
  daemonize_calls : Nat
  /-- Number of handles returned by `open`. -/
  opens : Nat
  /-- Number of calls of `close`. -/
  closes : Nat
deriving DecidableEq

/-- State given by the initialisers of the globals; `t` is `alarm_time` after option parsing. -/
def init_state (t : Int) : State :=
  { alarm_time := t, is_daemon := false, exit_mode := 0, alarm_flag := 0,
    sigusr_flag := 0, sighup_flag := 0, msg_count := 0, bytes_count := 0,
    alarm_count := 0, out := [], alarms := [], daemonize_calls := 0,
    opens := 0, closes := 0 }

/-- Bytes of an ASCII string literal. -/
def str (s : String) : List Nat := s.toList.map Char.toNat

/-- Bytes printed by the conversion `%llu`. -/
def llu (n : Nat) : List Nat := (Nat.toDigits 10 n).map Char.toNat

/-- Bytes printed by `printf("%s", buf)`: the bytes before the first zero byte. -/
def printf_s (buf : List Nat) : List Nat := buf.takeWhile (fun b => b != 0)

/-- The line printed by `print_stats` for the three counter values. -/
def stats_line (m b a : Nat) : List Nat :=
  str "msg: " ++ llu m ++ str ", bytes: " ++ llu b ++ str ", alarm count: " ++ llu a ++ str "\n"

/-- Result of a function that may call `exit`. -/
inductive Res where
  /-- The function returned to its caller. -/
  | run (s : State)
  /-- The function called `exit(code)`. -/
  | exit (code : Int) (s : State)
deriving DecidableEq

/-- State carried by a result. -/
def Res.st : Res → State
  | .run s => s
  | .exit _ s => s

/-- What the operating system answers inside `daemonize`. -/
structure DaemonEnv where
  /-- Return value of `fork`. -/
  pid : Int
  /-- Return value of `setsid`. -/
  sid : Int
  /-- Whether `freopen` of `stdin` returned a stream. -/
  fin : Bool
  /-- Whether `freopen` of `stdout` returned a stream. -/
  fout : Bool
  /-- Whether `freopen` of `stderr` returned a stream. -/
  ferr : Bool
deriving DecidableEq

/-- The answers seen by the child of a successful `fork` when every call succeeds. -/
def DaemonEnv.ok (d : DaemonEnv) : Prop :=
  d.pid = 0 ∧ 0 ≤ d.sid ∧ d.fin = true ∧ d.fout = true ∧ d.ferr = true

instance (d : DaemonEnv) : Decidable d.ok := by
  unfold DaemonEnv.ok; infer_instance

/-- An environment in which `daemonize` succeeds. -/
def env_ok : DaemonEnv := { pid := 0, sid := 1, fin := true, fout := true, ferr := true }

/-! ## The functions of `main.c` -/

/-- Function `daemonize` (lines 32 to 61). -/
def daemonize (d : DaemonEnv) (s : State) : Res :=
  let s0 := { s with daemonize_calls := s.daemonize_calls + 1 }
  if d.pid < 0 then .exit EXIT_FAILURE s0
  else if d.pid > 0 then .exit EXIT_SUCCESS s0
  else if d.sid < 0 then .exit EXIT_FAILURE s0
  else if d.fin = false then .exit EXIT_FAILURE s0
  else if d.fout = false then .exit EXIT_FAILURE s0
  else if d.ferr = false then .exit EXIT_FAILURE s0
  else .run { s0 with is_daemon := true }

/-- Function `print_stats` (lines 63 to 66). -/
def print_stats (s : State) : State :=
  { s with out := s.out ++ stats_line s.msg_count s.bytes_count s.alarm_count }

/-- Function `handle_signal` (lines 68 to 88). -/
def handle_signal (sig : Int) (s : State) : State :=
  if sig = SIGINT then { s with exit_mode := 1 }
  else if sig = SIGTERM then { s with exit_mode := 2 }
  else if sig = SIGALRM then { s with alarm_flag := 1 }
  else if sig = SIGUSR1 then { s with sigusr_flag := 1 }
  else if sig = SIGHUP then { s with sighup_flag := 1 }
  else s

/-- First block of `external_handler` (lines 91 to 97): the pending alarm. -/
def service_alarm (s : State) : State :=
  if s.alarm_flag ≠ 0 then
    { s with
      out := s.out ++ str "diag msg: waiting for data\n"
      alarm_count := (s.alarm_count + 1) % WORD
      alarm_flag := 0
      alarms := s.alarms ++ [s.alarm_time] }
  else s

/-- Second block of `external_handler` (lines 97 to 106): the pending hangup. -/
def service_sighup (d : DaemonEnv) (s : State) : Res :=
  if s.sighup_flag ≠ 0 then
    if s.is_daemon = false then
      match daemonize d s with
      | .exit code s1 => .exit code s1
      | .run s1 =>
        let s2 := print_stats { s1 with out := s1.out ++ str "daemonized via SIGHUP\n" }
        .run { s2 with alarms := s2.alarms ++ [s2.alarm_time], sighup_flag := 0 }
    else .run { s with sighup_flag := 0 }
  else .run s

/-- Third block of `external_handler` (lines 107 to 110): the pending diagnostic. -/
def service_sigusr (s : State) : State :=
  if s.sigusr_flag ≠ 0 then { print_stats s with sigusr_flag := 0 } else s

/-- Function `external_handler` (lines 90 to 111). -/
def external_handler (d : DaemonEnv) (s : State) : Res :=
  match service_sighup d (service_alarm s) with
  | .exit code s1 => .exit code s1
  | .run s1 => .run (service_sigusr s1)

/-! ## The main loop (lines 164 to 238) -/

/-- Result of `open(fifo_name, O_RDONLY)`. -/
inductive OpenResult where
  /-- A handle was returned. -/
  | fd
  /-- The call returned `-1` with `errno == EINTR`. -/
  | eintr
  /-- The call returned `-1` with another `errno`. -/
  | error
deriving DecidableEq

/-- Result of `read(fd, buf, BUFFER_SIZE - 1)`. -/
inductive ReadResult where
  /-- The call returned `bytes.length > 0` and stored `bytes` in `buf`. -/
  | data (bytes : List Nat)
  /-- The call returned `0`. -/
  | eof
  /-- The call returned `-1` with `errno == EINTR`. -/
  | eintr
  /-- The call returned `-1` with another `errno`. -/
  | error
deriving DecidableEq

/-- What the operating system does to the process. -/
inductive Event where
  /-- The handler `handle_signal` runs with argument `sig`. -/
  | signal (sig : Int)
  /-- The pending `open` returns. -/
  | sys_open (r : OpenResult)
  /-- The pending `read` returns. -/
  | sys_read (r : ReadResult)
  /-- The pending `close` returns `r`. -/
  | sys_close (r : Int)
  /-- The pending `unlink` returns `r`. -/
  | sys_unlink (r : Int)
deriving DecidableEq

/-- Control point: the system call the process is waiting in, with the live locals. -/
inductive Ctl where
  /-- Inside `open` (line 172). -/
  | in_open
  /-- Inside `read` (line 185) with the locals `total_read` and `last_char`. -/
  | in_read (total_read : Nat) (last_char : Nat)
  /-- Inside `close` of the immediate-stop branch (line 193). -/
  | in_close_stop (total_read : Nat) (last_char : Nat)
  /-- Inside `close` at the end of a message (line 223). -/
  | in_close_msg
  /-- Inside `unlink` (line 232): the loop has been left. -/
  | in_unlink
  /-- The process has ended with this exit status. -/
  | exited (code : Int)
  /-- The event list does not describe a run of this program. -/
  | stuck
deriving DecidableEq

/-- Control point and process state. -/
structure Config where
  /-- Where the process waits. -/
  ctl : Ctl
  /-- The process state. -/
  st : State
deriving DecidableEq

/-- Lines 229 to 232: leave the loop, print the final lines, call `unlink`. -/
def stopping (s : State) : Config :=
  ⟨.in_unlink, print_stats { s with out := s.out ++ str "exiting\n" }⟩

/-- Lines 170 to 172: test of the outer loop, flag servicing, call of `open`. -/
def loop_head (d : DaemonEnv) (s : State) : Config :=
  if s.exit_mode ≠ 0 then stopping s
  else
    match external_handler d s with
    | .exit code s1 => ⟨.exited code, s1⟩
    | .run s1 => ⟨.in_open, s1⟩

/-- Lines 213 to 220: terminator normalisation and the update of `bytes_count`. -/
def account_bytes (s : State) (total_read last_char : Nat) : State :=
  if 0 < total_read then
    if last_char ≠ NL then
      { s with out := s.out ++ [NL], bytes_count := (s.bytes_count + (total_read + 1) % WORD) % WORD }
    else
      { s with bytes_count := (s.bytes_count + total_read) % WORD }
  else s

/-- Lines 209 to 223: the code after the inner loop, up to the call of `close`. -/
def after_drain (s : State) (total_read last_char : Nat) : Config :=
  if s.exit_mode = 2 then stopping s
  else
    let s1 := account_bytes s total_read last_char
    ⟨.in_close_msg, { s1 with msg_count := (s1.msg_count + 1) % WORD }⟩

/-- Lines 202 to 206: echo of one chunk and the update of the locals. -/
def echo_chunk (s : State) (total_read : Nat) (bytes : List Nat) : Config :=
  ⟨.in_read ((total_read + bytes.length) % WORD) (bytes.getLastD 0),
    { s with out := s.out ++ printf_s bytes }⟩

/-- One event at one control point, followed by the code up to the next system call. -/
def step (d : DaemonEnv) (c : Config) (e : Event) : Config :=
  match c.ctl, e with
  | .in_open, .signal sig => ⟨.in_open, handle_signal sig c.st⟩
  | .in_open, .sys_open .fd => ⟨.in_read 0 0, { c.st with opens := c.st.opens + 1 }⟩
  | .in_open, .sys_open .eintr => loop_head d c.st
  | .in_open, .sys_open .error => ⟨.exited EXIT_FAILURE, c.st⟩
  | .in_read t l, .signal sig => ⟨.in_read t l, handle_signal sig c.st⟩
  | .in_read t _, .sys_read (.data bytes) =>
    if 0 < bytes.length ∧ bytes.length ≤ BUFFER_SIZE - 1 then echo_chunk c.st t bytes
    else ⟨.stuck, c.st⟩
  | .in_read t l, .sys_read .eof => after_drain c.st t l
  | .in_read t l, .sys_read .eintr =>
    if c.st.exit_mode = 2 then ⟨.in_close_stop t l, c.st⟩
    else
      match external_handler d c.st with
      | .exit code s1 => ⟨.exited code, s1⟩
      | .run s1 => ⟨.in_read t l, s1⟩
  | .in_read _ _, .sys_read .error =>
    ⟨.exited EXIT_FAILURE, { c.st with closes := c.st.closes + 1 }⟩
  | .in_close_stop t l, .signal sig => ⟨.in_close_stop t l, handle_signal sig c.st⟩
  | .in_close_stop t l, .sys_close r =>
    if r < 0 then ⟨.exited EXIT_FAILURE, { c.st with closes := c.st.closes + 1 }⟩
    else after_drain { c.st with closes := c.st.closes + 1 } t l
  | .in_close_msg, .signal sig => ⟨.in_close_msg, handle_signal sig c.st⟩
  | .in_close_msg, .sys_close r =>
    if r < 0 then ⟨.exited EXIT_FAILURE, { c.st with closes := c.st.closes + 1 }⟩
    else loop_head d { c.st with closes := c.st.closes + 1 }
  | .in_unlink, .signal sig => ⟨.in_unlink, handle_signal sig c.st⟩
  | .in_unlink, .sys_unlink r =>
    if r = -1 then ⟨.exited EXIT_FAILURE, c.st⟩ else ⟨.exited 0, c.st⟩
  | .exited code, _ => ⟨.exited code, c.st⟩
  | _, _ => ⟨.stuck, c.st⟩

/-- The process driven by a list of events. -/
def run (d : DaemonEnv) (c : Config) (es : List Event) : Config :=
  es.foldl (step d) c

/-- Lines 164 to 172: optional start-up `daemonize`, first `alarm`, entry of the loop. -/
def main_start (d : DaemonEnv) (daemon_mode : Bool) (s : State) : Config :=
  match (if daemon_mode then daemonize d s else .run s) with
  | .exit code s1 => ⟨.exited code, s1⟩
  | .run s1 => loop_head d { s1 with alarms := s1.alarms ++ [s1.alarm_time] }

/-! ## Deliveries of messages -/

/-- What may happen while the process waits in `open` and no stop is requested:
a signal other than `SIGINT` and `SIGTERM`, or an interrupted `open`. -/
def open_noise : Event → Bool
  | .signal sig => sig != SIGINT && sig != SIGTERM
  | .sys_open .eintr => true
  | _ => false

/-- What may happen between two chunks when no stop is requested: a signal other than
`SIGINT` and `SIGTERM`, or an interrupted `read`. -/
def read_noise : Event → Bool
  | .signal sig => sig != SIGINT && sig != SIGTERM
  | .sys_read .eintr => true
  | _ => false

/-- What may happen between two chunks when ImmediateStop is never requested: a signal
other than `SIGTERM`, or an interrupted `read`. -/
def graceful_noise : Event → Bool
  | .signal sig => sig != SIGTERM
  | .sys_read .eintr => true
  | _ => false

/-- Interruptions that carry nothing but the interrupt signal: `SIGINT`, or an
interrupted `read`. -/
def sigint_noise : Event → Bool
  | .signal sig => sig == SIGINT
  | .sys_read .eintr => true
  | _ => false

/-- One message as the operating system delivers it: what happens while the process
waits in `open`, then the chunks returned by `read`, each preceded by what happens
while the process waits for it, then what happens before `read` returns 0. -/
structure Delivery where
  /-- Events before `open` returns the handle. -/
  pre_open : List Event
  /-- The chunks, each with the events before it. -/
  chunks : List (List Event × List Nat)
  /-- Events before `read` returns 0. -/
  pre_eof : List Event
deriving DecidableEq

/-- The events of one chunk: the interruptions, then the data. -/
def chunk_events (p : List Event × List Nat) : List Event :=
  p.1 ++ [.sys_read (.data p.2)]

/-- The bytes of a list of chunks. -/
def chunk_bytes (cs : List (List Event × List Nat)) : List Nat :=
  (cs.map Prod.snd).flatten

/-- The interruptions of a list of chunks. -/
def chunk_noise (cs : List (List Event × List Nat)) : List Event :=
  (cs.map Prod.fst).flatten

/-- The bytes of the message. -/
def Delivery.bytes (m : Delivery) : List Nat := chunk_bytes m.chunks

/-- Every interruption during the reads of the message. -/
def Delivery.noise (m : Delivery) : List Event := chunk_noise m.chunks ++ m.pre_eof

/-- The events of the delivery, from the wait in `open` to the return of `close`. -/
def Delivery.events (m : Delivery) : List Event :=
  m.pre_open ++ [.sys_open .fd] ++ (m.chunks.map chunk_events).flatten ++ m.pre_eof
    ++ [.sys_read .eof, .sys_close 0]

/-- The chunks are results of `read(fd, buf, BUFFER_SIZE - 1)` and their
interruptions are of the kind `noise`. -/
def chunks_ok (noise : Event → Bool) (cs : List (List Event × List Nat)) : Prop :=
  ∀ p ∈ cs, (∀ e ∈ p.1, noise e = true) ∧ 0 < p.2.length ∧ p.2.length ≤ BUFFER_SIZE - 1

instance (noise : Event → Bool) (cs : List (List Event × List Nat)) :
    Decidable (chunks_ok noise cs) := by
  unfold chunks_ok; infer_instance

/-- A complete non-empty message: the wait in `open` sees no stop request, there is at
least one chunk, the interruptions of the reads are of the kind `noise`, and the
length fits `size_t`. -/
def Delivery.complete (noise : Event → Bool) (m : Delivery) : Prop :=
  (∀ e ∈ m.pre_open, open_noise e = true) ∧ chunks_ok noise m.chunks ∧
  (∀ e ∈ m.pre_eof, noise e = true) ∧ m.chunks ≠ [] ∧ m.bytes.length < WORD

instance (noise : Event → Bool) (m : Delivery) : Decidable (m.complete noise) := by
  unfold Delivery.complete; infer_instance

/-- The same chunks with no interruption at all. -/
def Delivery.quiet (m : Delivery) : Delivery :=
  ⟨[], m.chunks.map (fun p => ([], p.2)), []⟩

/-- Control points from which the loop is never entered again. -/
def Ctl.after_loop : Ctl → Bool
  | .in_unlink => true
  | .exited _ => true
  | .stuck => true
  | _ => false

/-- A state in the middle of a second message: one message of 6 bytes has been counted
and the 3 bytes `abc` of the next one have been read and echoed. -/
def mid_message : State :=
  { init_state 15 with
    msg_count := 1
    bytes_count := 6
    opens := 2
    closes := 1
    out := str "hello\nabc" }

/-- The three pending flags are clear. -/
def State.no_flag (s : State) : Prop :=
  s.alarm_flag = 0 ∧ s.sigusr_flag = 0 ∧ s.sighup_flag = 0

instance (s : State) : Decidable s.no_flag := by
  unfold State.no_flag; infer_instance

/-! ## Runs of the signal bridge and of the flag servicing -/

/-- The handler runs once for each signal of the list, in order. -/
def deliver (sigs : List Int) (s : State) : State :=
  sigs.foldl (fun s1 sig => handle_signal sig s1) s

/-- A sequence of servicing points: before each call of `external_handler` the
signals of one list are delivered.  The sequence ends when the process exits. -/
def service_rounds (d : DaemonEnv) : List (List Int) → State → Res
  | [], s => .run s
  | sigs :: rest, s =>
    match external_handler d (deliver sigs s) with
    | .exit code s1 => .exit code s1
    | .run s1 => service_rounds d rest s1

/-- Fields that neither a signal nor the flag servicing touches. -/
structure Frame (s s1 : State) : Prop where
  /-- The message counter is the same. -/
  msg_count : s1.msg_count = s.msg_count
  /-- The byte counter is the same. -/
  bytes_count : s1.bytes_count = s.bytes_count
  /-- The number of opened handles is the same. -/
  opens : s1.opens = s.opens
  /-- The number of closed handles is the same. -/
  closes : s1.closes = s.closes

/-- Fields the signal handler never writes: everything but `exit_mode` and the three flags. -/
structure SignalFrame (s s1 : State) : Prop where
  /-- The configured interval is the same. -/
  alarm_time : s1.alarm_time = s.alarm_time
  /-- The daemon state is the same. -/
  is_daemon : s1.is_daemon = s.is_daemon
  /-- The message counter is the same. -/
  msg_count : s1.msg_count = s.msg_count
  /-- The byte counter is the same. -/
  bytes_count : s1.bytes_count = s.bytes_count
  /-- The alarm counter is the same. -/
  alarm_count : s1.alarm_count = s.alarm_count
  /-- Nothing was printed. -/
  out : s1.out = s.out
  /-- The timer was not armed. -/
  alarms : s1.alarms = s.alarms
  /-- The function `daemonize` was not called. -/
  daemonize_calls : s1.daemonize_calls = s.daemonize_calls
  /-- The number of opened handles is the same. -/
  opens : s1.opens = s.opens
  /-- The number of closed handles is the same. -/
  closes : s1.closes = s.closes

/-! ## Basic facts -/

theorem Frame.frame_refl (s : State) : Frame s s := ⟨rfl, rfl, rfl, rfl⟩

theorem Frame.frame_trans {a b c : State} (h1 : Frame a b) (h2 : Frame b c) : Frame a c :=
  ⟨h2.1.trans h1.1, h2.2.trans h1.2, h2.3.trans h1.3, h2.4.trans h1.4⟩

theorem run_nil (d : DaemonEnv) (c : Config) : run d c [] = c := rfl

theorem run_cons (d : DaemonEnv) (c : Config) (e : Event) (es : List Event) :
    run d c (e :: es) = run d (step d c e) es := rfl

theorem run_append (d : DaemonEnv) (c : Config) (es fs : List Event) :
    run d c (es ++ fs) = run d (run d c es) fs := by
  simp [run, List.foldl_append]

theorem handle_signal_frame (sig : Int) (s : State) : Frame s (handle_signal sig s) := by
  unfold handle_signal
  split_ifs <;> exact ⟨rfl, rfl, rfl, rfl⟩

theorem service_alarm_frame (s : State) : Frame s (service_alarm s) := by
  unfold service_alarm
  split_ifs <;> exact ⟨rfl, rfl, rfl, rfl⟩

theorem service_sigusr_frame (s : State) : Frame s (service_sigusr s) := by
  unfold service_sigusr
  split_ifs <;> exact ⟨rfl, rfl, rfl, rfl⟩

theorem daemonize_frame (d : DaemonEnv) (s : State) : Frame s (daemonize d s).st := by
  unfold daemonize
  split_ifs <;> exact ⟨rfl, rfl, rfl, rfl⟩

theorem service_sighup_frame (d : DaemonEnv) (s : State) : Frame s (service_sighup d s).st := by
  unfold service_sighup
  split_ifs
  · have h := daemonize_frame d s
    cases hd : daemonize d s with
    | run s1 => rw [hd] at h; exact ⟨h.1, h.2, h.3, h.4⟩
    | exit c s1 => rw [hd] at h; exact h
  · exact ⟨rfl, rfl, rfl, rfl⟩
  · exact ⟨rfl, rfl, rfl, rfl⟩

theorem external_handler_frame (d : DaemonEnv) (s : State) :
    Frame s (external_handler d s).st := by
  have h1 := service_alarm_frame s
  have h2 := service_sighup_frame d (service_alarm s)
  unfold external_handler
  cases h : service_sighup d (service_alarm s) with
  | run s1 =>
    rw [h] at h2
    exact (h1.frame_trans h2).frame_trans (service_sigusr_frame s1)
  | exit c s1 =>
    rw [h] at h2
    exact h1.frame_trans h2

theorem SignalFrame.signal_refl (s : State) : SignalFrame s s :=
  ⟨rfl, rfl, rfl, rfl, rfl, rfl, rfl, rfl, rfl, rfl⟩

theorem SignalFrame.signal_trans {a b c : State} (h1 : SignalFrame a b) (h2 : SignalFrame b c) :
    SignalFrame a c :=
  ⟨h2.1.trans h1.1, h2.2.trans h1.2, h2.3.trans h1.3, h2.4.trans h1.4, h2.5.trans h1.5,
    h2.6.trans h1.6, h2.7.trans h1.7, h2.8.trans h1.8, h2.9.trans h1.9, h2.10.trans h1.10⟩

theorem SignalFrame.to_frame {a b : State} (h : SignalFrame a b) : Frame a b :=
  ⟨h.msg_count, h.bytes_count, h.opens, h.closes⟩

theorem handle_signal_signal_frame (sig : Int) (s : State) :
    SignalFrame s (handle_signal sig s) := by
  unfold handle_signal
  split_ifs <;> exact ⟨rfl, rfl, rfl, rfl, rfl, rfl, rfl, rfl, rfl, rfl⟩

theorem deliver_cons (sig : Int) (sigs : List Int) (s : State) :
    deliver (sig :: sigs) s = deliver sigs (handle_signal sig s) := rfl

theorem deliver_signal_frame (sigs : List Int) :
    ∀ s : State, SignalFrame s (deliver sigs s) := by
  induction sigs with
  | nil => intro s; exact SignalFrame.signal_refl s
  | cons sig rest ih =>
    intro s
    rw [deliver_cons]
    exact (handle_signal_signal_frame sig s).signal_trans (ih _)

theorem handle_signal_alarm_flag (sig : Int) (s : State) (h : s.alarm_flag ≠ 0 ∨ sig = SIGALRM) :
    (handle_signal sig s).alarm_flag ≠ 0 := by
  unfold handle_signal
  rcases h with h | h
  · split_ifs <;> simp [h]
  · subst h; simp [SIGALRM, SIGINT, SIGTERM]

theorem deliver_alarm_flag (sigs : List Int) :
    ∀ s : State, s.alarm_flag ≠ 0 ∨ SIGALRM ∈ sigs → (deliver sigs s).alarm_flag ≠ 0 := by
  induction sigs with
  | nil => intro s h; simpa using h
  | cons sig rest ih =>
    intro s h
    rw [deliver_cons]
    apply ih
    rcases h with h | h
    · exact Or.inl (handle_signal_alarm_flag sig s (Or.inl h))
    · rcases List.mem_cons.mp h with h | h
      · exact Or.inl (handle_signal_alarm_flag sig s (Or.inr h.symm))
      · exact Or.inr h

theorem handle_signal_sighup_flag (sig : Int) (s : State) (h : sig ≠ SIGHUP) :
    (handle_signal sig s).sighup_flag = s.sighup_flag := by
  unfold handle_signal
  split_ifs <;> simp_all

theorem deliver_sighup_flag (sigs : List Int) :
    ∀ s : State, SIGHUP ∉ sigs → (deliver sigs s).sighup_flag = s.sighup_flag := by
  induction sigs with
  | nil => intro s _; rfl
  | cons sig rest ih =>
    intro s h
    rw [deliver_cons, ih _ (fun hx => h (List.mem_cons_of_mem _ hx))]
    exact handle_signal_sighup_flag sig s (fun hx => h (hx ▸ List.mem_cons_self _ _))

/-- Without a call of `daemonize` the flag servicing is the three blocks in a row. -/
theorem external_handler_no_daemonize (d : DaemonEnv) (s : State)
    (h : s.sighup_flag = 0 ∨ s.is_daemon = true) :
    external_handler d s = .run (service_sigusr { service_alarm s with sighup_flag := 0 }) := by
  have h1 : (service_alarm s).sighup_flag = s.sighup_flag := by
    unfold service_alarm; split_ifs <;> rfl
  have h2 : (service_alarm s).is_daemon = s.is_daemon := by
    unfold service_alarm; split_ifs <;> rfl
  unfold external_handler service_sighup
  by_cases hh : s.sighup_flag = 0
  · have h3 : ({ service_alarm s with sighup_flag := 0 } : State) = service_alarm s := by
      rw [← hh, ← h1]
    simp [h1, hh, h3]
  · have hd : s.is_daemon = true := h.resolve_left hh
    simp [h1, h2, hh, hd]


/-! ## The signal bridge (`handle_signal`) -/

theorem handle_signal_exit_mode_ne_zero (sig : Int) (s : State) (h : s.exit_mode ≠ 0) :
    (handle_signal sig s).exit_mode ≠ 0 := by
  unfold handle_signal
  split_ifs <;> simp [h]

theorem deliver_exit_mode_mono (sigs : List Int) :
    ∀ s : State, (∀ sig ∈ sigs, sig ≠ SIGINT) → s.exit_mode ≤ 2 →
      s.exit_mode ≤ (deliver sigs s).exit_mode ∧ (deliver sigs s).exit_mode ≤ 2 := by
  induction sigs with
  | nil => intro s _ h; exact ⟨le_refl _, h⟩
  | cons sig rest ih =>
    intro s hs h2
    have hstep : s.exit_mode ≤ (handle_signal sig s).exit_mode ∧
        (handle_signal sig s).exit_mode ≤ 2 := by
      have hsig : sig ≠ SIGINT := hs sig (List.mem_cons_self _ _)
      unfold handle_signal
      split_ifs <;> simp_all
    have hrest := ih (handle_signal sig s) (fun x hx => hs x (List.mem_cons_of_mem _ hx)) hstep.2
    rw [deliver_cons]
    exact ⟨le_trans hstep.1 hrest.1, hrest.2⟩

/-- C7, as stated, fails: after `SIGTERM` has requested ImmediateStop (2), a later
`SIGINT` turns `exit_mode` back into GracefulStop (1). -/
theorem exit_mode_regresses_on_sigint :
    (deliver [SIGTERM] (init_state 15)).exit_mode = 2 ∧
    (deliver [SIGTERM, SIGINT] (init_state 15)).exit_mode = 1 ∧
    (deliver [SIGTERM, SIGINT] (init_state 15)).exit_mode
      < (deliver [SIGTERM] (init_state 15)).exit_mode := by
  decide

/-- C7, amended: for every sequence of signals and every starting state that is not
Running, `exit_mode` is not Running afterwards; `SIGINT` always leaves GracefulStop and
`SIGTERM` always leaves ImmediateStop, whatever was requested before; every other signal
leaves `exit_mode` as it is; and along a sequence without `SIGINT`, started in one of the
three modes, `exit_mode` never decreases. -/
theorem exit_mode_never_returns_to_running :
    (∀ (sigs : List Int) (s : State), s.exit_mode ≠ 0 → (deliver sigs s).exit_mode ≠ 0) ∧
    (∀ s : State, (handle_signal SIGINT s).exit_mode = 1) ∧
    (∀ s : State, (handle_signal SIGTERM s).exit_mode = 2) ∧
    (∀ (sig : Int) (s : State), sig ≠ SIGINT → sig ≠ SIGTERM →
      (handle_signal sig s).exit_mode = s.exit_mode) ∧
    (∀ (sigs : List Int) (s : State), (∀ sig ∈ sigs, sig ≠ SIGINT) → s.exit_mode ≤ 2 →
      s.exit_mode ≤ (deliver sigs s).exit_mode) := by
  refine ⟨?_, ?_, ?_, ?_, ?_⟩
  · intro sigs
    induction sigs with
    | nil => intro s h; exact h
    | cons sig rest ih =>
      intro s h
      rw [deliver_cons]
      exact ih _ (handle_signal_exit_mode_ne_zero sig s h)
  · intro s; simp [handle_signal]
  · intro s; simp [handle_signal, SIGTERM, SIGINT]
  · intro sig s h1 h2
    unfold handle_signal
    split_ifs <;> simp_all
  · intro sigs s h1 h2
    exact (deliver_exit_mode_mono sigs s h1 h2).1

/-- Witness of `exit_mode_never_returns_to_running`: started in GracefulStop, the signals
alarm, hangup, terminate, interrupt end in a stop mode; started in GracefulStop, the
signals alarm, terminate, hangup do not decrease the mode. -/
theorem exit_mode_never_returns_to_running_witness :
    (handle_signal SIGINT (init_state 15)).exit_mode ≠ 0 ∧
    (deliver [SIGALRM, SIGHUP, SIGTERM, SIGINT]
      (handle_signal SIGINT (init_state 15))).exit_mode ≠ 0 ∧
    (∀ sig ∈ [SIGALRM, SIGTERM, SIGHUP], sig ≠ SIGINT) ∧
    (handle_signal SIGINT (init_state 15)).exit_mode ≤ 2 ∧
    (handle_signal SIGINT (init_state 15)).exit_mode
      ≤ (deliver [SIGALRM, SIGTERM, SIGHUP] (handle_signal SIGINT (init_state 15))).exit_mode :=
  ⟨by decide,
    exit_mode_never_returns_to_running.1 [SIGALRM, SIGHUP, SIGTERM, SIGINT]
      (handle_signal SIGINT (init_state 15)) (by decide),
    by decide, by decide,
    exit_mode_never_returns_to_running.2.2.2.2 [SIGALRM, SIGTERM, SIGHUP]
      (handle_signal SIGINT (init_state 15)) (by decide) (by decide)⟩

/-! ## The flag servicing (`external_handler`) -/

theorem service_alarm_pending (s : State) (h : s.alarm_flag ≠ 0) :
    service_alarm s =
      { s with
        out := s.out ++ str "diag msg: waiting for data\n"
        alarm_count := (s.alarm_count + 1) % WORD
        alarm_flag := 0
        alarms := s.alarms ++ [s.alarm_time] } := by
  unfold service_alarm; rw [if_pos h]

theorem service_alarm_clear (s : State) (h : s.alarm_flag = 0) : service_alarm s = s := by
  unfold service_alarm; simp [h]

/-- What the hangup block does to the alarm bookkeeping. -/
theorem service_sighup_alarm (d : DaemonEnv) (s : State) :
    (service_sighup d s).st.alarm_count = s.alarm_count ∧
    (service_sighup d s).st.alarm_flag = s.alarm_flag ∧
    (service_sighup d s).st.alarm_time = s.alarm_time ∧
    ∃ rest, (service_sighup d s).st.alarms = s.alarms ++ rest := by
  unfold service_sighup
  split_ifs
  · unfold daemonize
    split_ifs <;> first
      | exact ⟨rfl, rfl, rfl, [], (List.append_nil _).symm⟩
      | exact ⟨rfl, rfl, rfl, [s.alarm_time], rfl⟩
  · exact ⟨rfl, rfl, rfl, [], (List.append_nil _).symm⟩
  · exact ⟨rfl, rfl, rfl, [], (List.append_nil _).symm⟩

theorem service_sigusr_alarm (s : State) :
    (service_sigusr s).alarm_count = s.alarm_count ∧
    (service_sigusr s).alarm_flag = s.alarm_flag ∧
    (service_sigusr s).alarm_time = s.alarm_time ∧
    (service_sigusr s).alarms = s.alarms := by
  unfold service_sigusr
  split_ifs <;> exact ⟨rfl, rfl, rfl, rfl⟩

/-- What the whole flag servicing does to the alarm bookkeeping, relative to the
state after the alarm block. -/
theorem external_handler_alarm (d : DaemonEnv) (s : State) :
    (external_handler d s).st.alarm_count = (service_alarm s).alarm_count ∧
    (external_handler d s).st.alarm_flag = (service_alarm s).alarm_flag ∧
    (external_handler d s).st.alarm_time = (service_alarm s).alarm_time ∧
    ∃ rest, (external_handler d s).st.alarms = (service_alarm s).alarms ++ rest := by
  obtain ⟨h1, h2, h3, rest, h4⟩ := service_sighup_alarm d (service_alarm s)
  unfold external_handler
  cases h : service_sighup d (service_alarm s) with
  | exit c s1 =>
    rw [h] at h1 h2 h3 h4
    exact ⟨h1, h2, h3, rest, h4⟩
  | run s1 =>
    rw [h] at h1 h2 h3 h4
    obtain ⟨g1, g2, g3, g4⟩ := service_sigusr_alarm s1
    exact ⟨g1.trans h1, g2.trans h2, g3.trans h3, rest, g4.trans h4⟩
theorem service_alarm_keeps (s : State) :
    (service_alarm s).is_daemon = s.is_daemon ∧
    (service_alarm s).daemonize_calls = s.daemonize_calls ∧
    (service_alarm s).alarm_time = s.alarm_time ∧
    (service_alarm s).sighup_flag = s.sighup_flag ∧
    (service_alarm s).alarm_flag = 0 := by
  unfold service_alarm
  split_ifs with h
  · exact ⟨rfl, rfl, rfl, rfl, rfl⟩
  · exact ⟨rfl, rfl, rfl, rfl, not_not.mp h⟩

/-- The flag servicing when no call of `daemonize` is due. -/
theorem external_handler_no_daemonize_state (d : DaemonEnv) (s : State)
    (h : s.sighup_flag = 0 ∨ s.is_daemon = true) :
    ∃ s2, external_handler d s = .run s2 ∧ s2.is_daemon = s.is_daemon ∧
      s2.sighup_flag = 0 ∧ s2.daemonize_calls = s.daemonize_calls ∧
      s2.alarm_time = s.alarm_time ∧ s2.alarm_flag = 0 ∧
      s2.alarm_count = (service_alarm s).alarm_count ∧
      s2.alarms = (service_alarm s).alarms := by
  obtain ⟨k1, k2, k3, _, k5⟩ := service_alarm_keeps s
  refine ⟨_, external_handler_no_daemonize d s h, ?_⟩
  unfold service_sigusr
  split_ifs
  · exact ⟨k1, rfl, k2, k3, k5, rfl, rfl⟩
  · exact ⟨k1, rfl, k2, k3, k5, rfl, rfl⟩

theorem add_one_mod_add (a k : Nat) : ((a + 1) % WORD + k) % WORD = (a + (k + 1)) % WORD := by
  unfold WORD
  omega

theorem service_rounds_cons (d : DaemonEnv) (sigs : List Int) (rest : List (List Int))
    (s s1 : State) (h : external_handler d (deliver sigs s) = .run s1) :
    service_rounds d (sigs :: rest) s = service_rounds d rest s1 := by
  simp [service_rounds, h]

theorem WORD_pos : 0 < WORD := by unfold WORD; norm_num

/-- Servicing points that each see a pending alarm, with no call of `daemonize` due:
the alarm counter and the list of `alarm` calls. -/
theorem service_rounds_alarms (d : DaemonEnv) (rounds : List (List Int)) :
    ∀ s : State, (∀ r ∈ rounds, SIGALRM ∈ r) →
      (s.is_daemon = true ∨ (s.sighup_flag = 0 ∧ ∀ r ∈ rounds, SIGHUP ∉ r)) →
      s.alarm_count < WORD →
      ∃ s1, service_rounds d rounds s = .run s1 ∧
        s1.alarm_count = (s.alarm_count + rounds.length) % WORD ∧
        s1.alarms = s.alarms ++ List.replicate rounds.length s.alarm_time := by
  induction rounds with
  | nil =>
    intro s _ _ hlt
    exact ⟨s, rfl, (Nat.mod_eq_of_lt hlt).symm, by simp⟩
  | cons sigs rest ih =>
    intro s halarm hinv _
    have hf := deliver_signal_frame sigs s
    have hflag : (deliver sigs s).alarm_flag ≠ 0 :=
      deliver_alarm_flag sigs s (Or.inr (halarm sigs (List.mem_cons_self _ _)))
    have hquiet : (deliver sigs s).sighup_flag = 0 ∨ (deliver sigs s).is_daemon = true := by
      rcases hinv with h | ⟨h1, h2⟩
      · exact Or.inr (hf.is_daemon.trans h)
      · exact Or.inl ((deliver_sighup_flag sigs s (h2 sigs (List.mem_cons_self _ _))).trans h1)
    obtain ⟨s2, hrun, hd, hh, _, ht, _, hc, ha⟩ :=
      external_handler_no_daemonize_state d (deliver sigs s) hquiet
    rw [service_alarm_pending _ hflag] at hc ha
    simp only [] at hc ha
    have hinv2 : s2.is_daemon = true ∨ (s2.sighup_flag = 0 ∧ ∀ r ∈ rest, SIGHUP ∉ r) := by
      rcases hinv with h | ⟨_, h2⟩
      · exact Or.inl (hd.trans (hf.is_daemon.trans h))
      · exact Or.inr ⟨hh, fun r hr => h2 r (List.mem_cons_of_mem _ hr)⟩
    have hlt2 : s2.alarm_count < WORD := by
      rw [hc]; exact Nat.mod_lt _ WORD_pos
    obtain ⟨s3, hrun3, hc3, ha3⟩ :=
      ih s2 (fun r hr => halarm r (List.mem_cons_of_mem _ hr)) hinv2 hlt2
    refine ⟨s3, (service_rounds_cons d sigs rest s s2 hrun).trans hrun3, ?_, ?_⟩
    · rw [hc3, hc, hf.alarm_count, List.length_cons]
      exact add_one_mod_add _ _
    · rw [ha3, ha, ht, hf.alarms, hf.alarm_time, List.length_cons, List.replicate_succ]
      simp

/-- C9: a call of `external_handler` with `alarm_flag` pending adds exactly one to
`alarm_count` (in unsigned 64-bit arithmetic, so the plain successor whenever that fits),
clears `alarm_flag` and calls `alarm(alarm_time)`; a call with `alarm_flag` clear leaves
`alarm_count` as it is; and after `k` servicing points that each see a pending alarm,
`alarm_count` has grown by `k` and `alarm(alarm_time)` was called `k` times. -/
theorem alarm_servicing :
    (∀ (d : DaemonEnv) (s : State), s.alarm_flag ≠ 0 →
      (external_handler d s).st.alarm_count = (s.alarm_count + 1) % WORD ∧
      (s.alarm_count + 1 < WORD →
        (external_handler d s).st.alarm_count = s.alarm_count + 1) ∧
      (external_handler d s).st.alarm_flag = 0 ∧
      (∃ rest, (external_handler d s).st.alarms = s.alarms ++ s.alarm_time :: rest) ∧
      (s.sighup_flag = 0 ∨ s.is_daemon = true →
        external_handler d s = .run (external_handler d s).st ∧
        (external_handler d s).st.alarms = s.alarms ++ [s.alarm_time])) ∧
    (∀ (d : DaemonEnv) (s : State), s.alarm_flag = 0 →
      (external_handler d s).st.alarm_count = s.alarm_count ∧
      (s.sighup_flag = 0 ∨ s.is_daemon = true →
        (external_handler d s).st.alarms = s.alarms)) ∧
    (∀ (d : DaemonEnv) (rounds : List (List Int)) (s : State),
      (∀ r ∈ rounds, SIGALRM ∈ r) →
      (s.is_daemon = true ∨ (s.sighup_flag = 0 ∧ ∀ r ∈ rounds, SIGHUP ∉ r)) →
      s.alarm_count < WORD →
      ∃ s1, service_rounds d rounds s = .run s1 ∧
        s1.alarm_count = (s.alarm_count + rounds.length) % WORD ∧
        (s.alarm_count + rounds.length < WORD →
          s1.alarm_count = s.alarm_count + rounds.length) ∧
        s1.alarms = s.alarms ++ List.replicate rounds.length s.alarm_time) := by
  refine ⟨?_, ?_, ?_⟩
  · intro d s h
    obtain ⟨h1, h2, _, rest, h4⟩ := external_handler_alarm d s
    rw [service_alarm_pending s h] at h1 h2 h4
    simp only [] at h1 h2 h4
    refine ⟨h1, fun hlt => by rw [h1, Nat.mod_eq_of_lt hlt], h2, ⟨rest, ?_⟩, ?_⟩
    · rw [h4]; simp
    · intro hq
      obtain ⟨s2, hrun, _, _, _, _, _, _, ha⟩ := external_handler_no_daemonize_state d s hq
      rw [service_alarm_pending s h] at ha
      rw [hrun]
      exact ⟨rfl, ha⟩
  · intro d s h
    obtain ⟨h1, _, _, _⟩ := external_handler_alarm d s
    rw [service_alarm_clear s h] at h1
    refine ⟨h1, ?_⟩
    intro hq
    obtain ⟨s2, hrun, _, _, _, _, _, _, ha⟩ := external_handler_no_daemonize_state d s hq
    rw [service_alarm_clear s h] at ha
    rw [hrun]
    exact ha
  · intro d rounds s h1 h2 h3
    obtain ⟨s1, hrun, hc, ha⟩ := service_rounds_alarms d rounds s h1 h2 h3
    exact ⟨s1, hrun, hc, fun hlt => by rw [hc, Nat.mod_eq_of_lt hlt], ha⟩

/-- Witness of `alarm_servicing`: from the initial state with interval 15, one pending
alarm gives `alarm_count = 1` and one call `alarm(15)`; three alarm periods give
`alarm_count = 3` and three calls `alarm(15)`. -/
theorem alarm_servicing_witness :
    (handle_signal SIGALRM (init_state 15)).alarm_flag ≠ 0 ∧
    (external_handler env_ok (handle_signal SIGALRM (init_state 15))).st.alarm_count = 1 ∧
    (external_handler env_ok (handle_signal SIGALRM (init_state 15))).st.alarms = [15] ∧
    (∃ s1, service_rounds env_ok [[SIGALRM], [SIGUSR1, SIGALRM], [SIGALRM]] (init_state 15)
        = .run s1 ∧ s1.alarm_count = 3 ∧ s1.alarms = [15, 15, 15]) := by
  have hflag : (handle_signal SIGALRM (init_state 15)).alarm_flag ≠ 0 := by decide
  obtain ⟨_, h2, _, _, h5⟩ :=
    alarm_servicing.1 env_ok (handle_signal SIGALRM (init_state 15)) hflag
  obtain ⟨s1, hrun, _, hc, ha⟩ :=
    alarm_servicing.2.2 env_ok [[SIGALRM], [SIGUSR1, SIGALRM], [SIGALRM]] (init_state 15)
      (by decide) (by decide) (by decide)
  exact ⟨hflag, h2 (by decide), (h5 (by decide)).2, s1, hrun, hc (by decide), ha⟩
/-- C10: when only the diagnostic flag `sigusr_flag` is pending, `external_handler`
returns, having appended the one line of `print_stats` for the current values of
`msg_count`, `bytes_count` and `alarm_count` to the output and cleared `sigusr_flag`;
every other field (the three counters, `exit_mode`, `is_daemon`, the other flags, the
timer) is as before. -/
theorem diagnostic_dump_read_only (d : DaemonEnv) (s : State)
    (ha : s.alarm_flag = 0) (hh : s.sighup_flag = 0) (hu : s.sigusr_flag ≠ 0) :
    external_handler d s =
      .run { s with
        out := s.out ++ stats_line s.msg_count s.bytes_count s.alarm_count
        sigusr_flag := 0 } := by
  rw [external_handler_no_daemonize d s (Or.inl hh), service_alarm_clear s ha]
  have h3 : ({ s with sighup_flag := 0 } : State) = s := by rw [← hh]
  rw [h3]
  unfold service_sigusr print_stats
  rw [if_pos hu]

/-- Witness of `diagnostic_dump_read_only`: after one message of 6 bytes and one alarm,
the diagnostic signal prints `msg: 1, bytes: 6, alarm count: 1`. -/
theorem diagnostic_dump_read_only_witness :
    external_handler env_ok
        { init_state 15 with msg_count := 1, bytes_count := 6, alarm_count := 1,
                             sigusr_flag := 1 } =
      .run { init_state 15 with msg_count := 1, bytes_count := 6, alarm_count := 1,
                                out := str "msg: 1, bytes: 6, alarm count: 1\n" } :=
  diagnostic_dump_read_only env_ok
    { init_state 15 with msg_count := 1, bytes_count := 6, alarm_count := 1, sigusr_flag := 1 }
    rfl rfl (by decide)

theorem daemonize_ok (d : DaemonEnv) (hd : d.ok) (s : State) :
    daemonize d s =
      .run { s with daemonize_calls := s.daemonize_calls + 1, is_daemon := true } := by
  obtain ⟨h1, h2, h3, h4, h5⟩ := hd
  unfold daemonize
  simp [h1, h3, h4, h5, not_lt.mpr h2]

theorem daemonize_not_ok (d : DaemonEnv) (hd : ¬ d.ok) (s : State) :
    ∃ code, daemonize d s =
      .exit code { s with daemonize_calls := s.daemonize_calls + 1 } := by
  unfold daemonize
  split_ifs with h1 h2 h3 h4 h5 h6
  · exact ⟨_, rfl⟩
  · exact ⟨_, rfl⟩
  · exact ⟨_, rfl⟩
  · exact ⟨_, rfl⟩
  · exact ⟨_, rfl⟩
  · exact ⟨_, rfl⟩
  · exfalso
    apply hd
    unfold DaemonEnv.ok
    refine ⟨by omega, by omega, ?_, ?_, ?_⟩
    · simpa using h4
    · simpa using h5
    · simpa using h6

/-- Servicing points of a process that is already a daemon. -/
theorem service_rounds_daemon (d : DaemonEnv) (rounds : List (List Int)) :
    ∀ s : State, s.is_daemon = true →
      ∃ s1, service_rounds d rounds s = .run s1 ∧ s1.is_daemon = true ∧
        s1.daemonize_calls = s.daemonize_calls := by
  induction rounds with
  | nil => intro s h; exact ⟨s, rfl, h, rfl⟩
  | cons sigs rest ih =>
    intro s h
    have hf := deliver_signal_frame sigs s
    obtain ⟨s2, hrun, hd, _, hc, _⟩ :=
      external_handler_no_daemonize_state d (deliver sigs s) (Or.inr (hf.is_daemon.trans h))
    obtain ⟨s3, hrun3, hd3, hc3⟩ := ih s2 (hd.trans (hf.is_daemon.trans h))
    exact ⟨s3, (service_rounds_cons d sigs rest s s2 hrun).trans hrun3, hd3,
      hc3.trans (hc.trans hf.daemonize_calls)⟩
/-- C8: servicing a pending hangup while `is_daemon` is false calls `daemonize` once and,
when that call succeeds, continues with `is_daemon` true and `sighup_flag` clear (when it
does not succeed the process exits inside that one call); servicing a pending hangup while
`is_daemon` is true calls nothing, returns with `is_daemon` true, `sighup_flag` clear and
the message and byte counters as before, and when no other flag is pending the only change
of the whole state is the cleared `sighup_flag` (nothing printed, timer not armed, all
counters as before); and once `is_daemon` is true, every later sequence of signals and
servicing points leaves it true without another call of `daemonize`. -/
theorem hangup_backgrounds_once :
    (∀ (d : DaemonEnv) (s : State), d.ok → s.sighup_flag ≠ 0 → s.is_daemon = false →
      ∃ s1, external_handler d s = .run s1 ∧ s1.is_daemon = true ∧
        s1.daemonize_calls = s.daemonize_calls + 1 ∧ s1.sighup_flag = 0) ∧
    (∀ (d : DaemonEnv) (s : State), ¬ d.ok → s.sighup_flag ≠ 0 → s.is_daemon = false →
      ∃ code s1, external_handler d s = .exit code s1 ∧
        s1.daemonize_calls = s.daemonize_calls + 1) ∧
    (∀ (d : DaemonEnv) (s : State), s.sighup_flag ≠ 0 → s.is_daemon = true →
      (∃ s1, external_handler d s = .run s1 ∧ s1.is_daemon = true ∧
        s1.daemonize_calls = s.daemonize_calls ∧ s1.sighup_flag = 0 ∧
        s1.msg_count = s.msg_count ∧ s1.bytes_count = s.bytes_count) ∧
      (s.alarm_flag = 0 → s.sigusr_flag = 0 →
        external_handler d s = .run { s with sighup_flag := 0 })) ∧
    (∀ (d : DaemonEnv) (rounds : List (List Int)) (s : State), s.is_daemon = true →
      ∃ s1, service_rounds d rounds s = .run s1 ∧ s1.is_daemon = true ∧
        s1.daemonize_calls = s.daemonize_calls) := by
  refine ⟨?_, ?_, ?_, ?_⟩
  · intro d s hd hh hdm
    obtain ⟨k1, k2, _, k4, _⟩ := service_alarm_keeps s
    have hh1 : (service_alarm s).sighup_flag ≠ 0 := by rw [k4]; exact hh
    have hd1 : (service_alarm s).is_daemon = false := by rw [k1]; exact hdm
    unfold external_handler service_sighup
    rw [if_pos hh1, if_pos hd1, daemonize_ok d hd]
    simp only []
    unfold service_sigusr
    split_ifs
    · exact ⟨_, rfl, rfl, by simp [print_stats, k2], rfl⟩
    · exact ⟨_, rfl, rfl, by simp [print_stats, k2], rfl⟩
  · intro d s hd hh hdm
    obtain ⟨k1, k2, _, k4, _⟩ := service_alarm_keeps s
    have hh1 : (service_alarm s).sighup_flag ≠ 0 := by rw [k4]; exact hh
    have hd1 : (service_alarm s).is_daemon = false := by rw [k1]; exact hdm
    obtain ⟨code, hcode⟩ := daemonize_not_ok d hd (service_alarm s)
    unfold external_handler service_sighup
    rw [if_pos hh1, if_pos hd1, hcode]
    exact ⟨code, _, rfl, by simp [k2]⟩
  · intro d s hh hdm
    constructor
    · obtain ⟨s1, hrun, h1, h2, h3, _⟩ :=
        external_handler_no_daemonize_state d s (Or.inr hdm)
      have hf := external_handler_frame d s
      rw [hrun] at hf
      exact ⟨s1, hrun, h1.trans hdm, h3, h2, hf.msg_count, hf.bytes_count⟩
    · intro ha hu
      rw [external_handler_no_daemonize d s (Or.inr hdm), service_alarm_clear s ha]
      unfold service_sigusr
      rw [if_neg (not_not.mpr hu)]
  · intro d rounds s h
    exact service_rounds_daemon d rounds s h

/-- Witness of `hangup_backgrounds_once`: a first hangup on the initial state turns
`is_daemon` on with one call of `daemonize`; a second hangup on the resulting state
changes nothing but the flag; three more hangups keep the daemon state. -/
theorem hangup_backgrounds_once_witness :
    (∃ s1, external_handler env_ok (handle_signal SIGHUP (init_state 15)) = .run s1 ∧
      s1.is_daemon = true ∧ s1.daemonize_calls = 1 ∧ s1.sighup_flag = 0) ∧
    external_handler env_ok
        (handle_signal SIGHUP { init_state 15 with is_daemon := true, daemonize_calls := 1 }) =
      .run { init_state 15 with is_daemon := true, daemonize_calls := 1 } ∧
    (∃ s1, service_rounds env_ok [[SIGHUP], [SIGHUP, SIGALRM], [SIGHUP]]
        { init_state 15 with is_daemon := true, daemonize_calls := 1 } = .run s1 ∧
      s1.is_daemon = true ∧ s1.daemonize_calls = 1) :=
  ⟨hangup_backgrounds_once.1 env_ok (handle_signal SIGHUP (init_state 15))
      (by decide) (by decide) rfl,
    (hangup_backgrounds_once.2.2.1 env_ok
      (handle_signal SIGHUP { init_state 15 with is_daemon := true, daemonize_calls := 1 })
      (by decide) rfl).2 rfl rfl,
    hangup_backgrounds_once.2.2.2 env_ok [[SIGHUP], [SIGHUP, SIGALRM], [SIGHUP]]
      { init_state 15 with is_daemon := true, daemonize_calls := 1 } rfl⟩

/-! ## The main loop: interruptions -/

theorem external_handler_exit_mode (d : DaemonEnv) (s : State) :
    (external_handler d s).st.exit_mode = s.exit_mode := by
  have h1 : (service_alarm s).exit_mode = s.exit_mode := by
    unfold service_alarm; split_ifs <;> rfl
  have h2 : ∀ x : State, (service_sighup d x).st.exit_mode = x.exit_mode := by
    intro x
    unfold service_sighup daemonize
    split_ifs <;> rfl
  have h3 : ∀ x : State, (service_sigusr x).exit_mode = x.exit_mode := by
    intro x
    unfold service_sigusr; split_ifs <;> rfl
  have h4 := h2 (service_alarm s)
  unfold external_handler
  cases h : service_sighup d (service_alarm s) with
  | exit c s1 => rw [h] at h4; exact h4.trans h1
  | run s1 => rw [h] at h4; exact (h3 s1).trans (h4.trans h1)

theorem service_sighup_ok (d : DaemonEnv) (hd : d.ok) (s : State) :
    ∃ s1, service_sighup d s = .run s1 := by
  unfold service_sighup
  split_ifs
  · rw [daemonize_ok d hd]
    exact ⟨_, rfl⟩
  · exact ⟨_, rfl⟩
  · exact ⟨_, rfl⟩

/-- With a succeeding `daemonize` the flag servicing always returns. -/
theorem external_handler_ok (d : DaemonEnv) (hd : d.ok) (s : State) :
    external_handler d s = .run (external_handler d s).st := by
  obtain ⟨s1, h⟩ := service_sighup_ok d hd (service_alarm s)
  unfold external_handler
  rw [h]
  rfl

/-- With no flag pending the flag servicing does nothing. -/
theorem external_handler_no_flag (d : DaemonEnv) (s : State) (h : s.no_flag) :
    external_handler d s = .run s := by
  obtain ⟨h1, h2, h3⟩ := h
  rw [external_handler_no_daemonize d s (Or.inl h3), service_alarm_clear s h1]
  have h4 : ({ s with sighup_flag := 0 } : State) = s := by rw [← h3]
  rw [h4]
  unfold service_sigusr
  rw [if_neg (not_not.mpr h2)]

theorem step_read_signal (d : DaemonEnv) (t l : Nat) (s : State) (sig : Int) :
    step d ⟨.in_read t l, s⟩ (.signal sig) = ⟨.in_read t l, handle_signal sig s⟩ := rfl

theorem step_read_eintr (d : DaemonEnv) (hd : d.ok) (t l : Nat) (s : State)
    (h : s.exit_mode ≠ 2) :
    step d ⟨.in_read t l, s⟩ (.sys_read .eintr) = ⟨.in_read t l, (external_handler d s).st⟩ := by
  simp only [step, if_neg h]
  rw [external_handler_ok d hd s]
  rfl

theorem step_read_data (d : DaemonEnv) (t l : Nat) (s : State) (bytes : List Nat)
    (h : 0 < bytes.length ∧ bytes.length ≤ BUFFER_SIZE - 1) :
    step d ⟨.in_read t l, s⟩ (.sys_read (.data bytes)) =
      ⟨.in_read ((t + bytes.length) % WORD) (bytes.getLastD 0),
        { s with out := s.out ++ printf_s bytes }⟩ := by
  simp only [step, if_pos h, echo_chunk]

theorem step_open_signal (d : DaemonEnv) (s : State) (sig : Int) :
    step d ⟨.in_open, s⟩ (.signal sig) = ⟨.in_open, handle_signal sig s⟩ := rfl

theorem step_open_eintr (d : DaemonEnv) (hd : d.ok) (s : State) (h : s.exit_mode = 0) :
    step d ⟨.in_open, s⟩ (.sys_open .eintr) = ⟨.in_open, (external_handler d s).st⟩ := by
  simp only [step, loop_head, h, ne_eq, not_true_eq_false, if_false]
  rw [external_handler_ok d hd s]
  rfl

theorem handle_signal_exit_mode_of_ne (sig : Int) (s : State)
    (h1 : sig ≠ SIGINT) (h2 : sig ≠ SIGTERM) :
    (handle_signal sig s).exit_mode = s.exit_mode := by
  unfold handle_signal
  split_ifs <;> simp_all

theorem handle_signal_sigint (s : State) :
    handle_signal SIGINT s = { s with exit_mode := 1 } := by
  simp [handle_signal]

/-- Interruptions while waiting in `open`, with no stop request. -/
theorem run_open_noise (d : DaemonEnv) (hd : d.ok) (nz : List Event) :
    ∀ s : State, (∀ e ∈ nz, open_noise e = true) → s.exit_mode = 0 →
      ∃ s1, run d ⟨.in_open, s⟩ nz = ⟨.in_open, s1⟩ ∧ Frame s s1 ∧ s1.exit_mode = 0 := by
  induction nz with
  | nil => intro s _ h; exact ⟨s, rfl, Frame.frame_refl s, h⟩
  | cons e rest ih =>
    intro s hnz hs
    have he := hnz e (List.mem_cons_self _ _)
    have hrest : ∀ x ∈ rest, open_noise x = true := fun x hx => hnz x (List.mem_cons_of_mem _ hx)
    rw [run_cons]
    match e, he with
    | .signal sig, he =>
      simp only [open_noise, Bool.and_eq_true, bne_iff_ne, ne_eq] at he
      rw [step_open_signal]
      obtain ⟨s1, h1, h2, h3⟩ := ih (handle_signal sig s) hrest
        ((handle_signal_exit_mode_of_ne sig s he.1 he.2).trans hs)
      exact ⟨s1, h1, (handle_signal_frame sig s).frame_trans h2, h3⟩
    | .sys_open .eintr, _ =>
      rw [step_open_eintr d hd s hs]
      obtain ⟨s1, h1, h2, h3⟩ := ih (external_handler d s).st hrest
        ((external_handler_exit_mode d s).trans hs)
      exact ⟨s1, h1, (external_handler_frame d s).frame_trans h2, h3⟩

/-- Interruptions while waiting in `read`, none of them a `SIGTERM`. -/
theorem run_read_noise (d : DaemonEnv) (hd : d.ok) (nz : List Event) (t l : Nat) :
    ∀ s : State, (∀ e ∈ nz, graceful_noise e = true) → s.exit_mode ≠ 2 →
      ∃ s1, run d ⟨.in_read t l, s⟩ nz = ⟨.in_read t l, s1⟩ ∧ Frame s s1 ∧
        s1.exit_mode = if Event.signal SIGINT ∈ nz then 1 else s.exit_mode := by
  induction nz with
  | nil => intro s _ _; exact ⟨s, rfl, Frame.frame_refl s, by simp⟩
  | cons e rest ih =>
    intro s hnz hs
    have he := hnz e (List.mem_cons_self _ _)
    have hrest : ∀ x ∈ rest, graceful_noise x = true :=
      fun x hx => hnz x (List.mem_cons_of_mem _ hx)
    rw [run_cons]
    match e, he with
    | .signal sig, he =>
      simp only [graceful_noise, bne_iff_ne, ne_eq] at he
      rw [step_read_signal]
      by_cases hsig : sig = SIGINT
      · subst hsig
        obtain ⟨s1, h1, h2, h3⟩ := ih (handle_signal SIGINT s) hrest
          (by rw [handle_signal_sigint]; simp)
        refine ⟨s1, h1, (handle_signal_frame _ s).frame_trans h2, ?_⟩
        rw [h3, handle_signal_sigint]
        simp
      · obtain ⟨s1, h1, h2, h3⟩ := ih (handle_signal sig s) hrest
          (by rw [handle_signal_exit_mode_of_ne sig s hsig he]; exact hs)
        refine ⟨s1, h1, (handle_signal_frame _ s).frame_trans h2, ?_⟩
        rw [h3, handle_signal_exit_mode_of_ne sig s hsig he]
        have hne : SIGINT ≠ sig := fun h => hsig h.symm
        simp [hne]
    | .sys_read .eintr, _ =>
      rw [step_read_eintr d hd t l s hs]
      obtain ⟨s1, h1, h2, h3⟩ := ih (external_handler d s).st hrest
        (by rw [external_handler_exit_mode]; exact hs)
      refine ⟨s1, h1, (external_handler_frame d s).frame_trans h2, ?_⟩
      rw [h3, external_handler_exit_mode]
      simp
/-! ## The main loop: chunks and messages -/

theorem getLastD_append (a b : List Nat) (l : Nat) :
    (a ++ b).getLastD l = b.getLastD (a.getLastD l) := by
  induction a generalizing l with
  | nil => rfl
  | cons x xs ih =>
    cases b with
    | nil => simp
    | cons y ys =>
      cases xs with
      | nil => simp [List.getLastD]
      | cons z zs =>
        have h := ih x
        simp only [List.cons_append, List.getLastD_cons] at h ⊢
        exact h

theorem getLastD_of_pos (a : List Nat) (h : 0 < a.length) (l k : Nat) :
    a.getLastD l = a.getLastD k := by
  cases a with
  | nil => simp at h
  | cons x xs => simp [List.getLastD]

theorem add_mod_add (t n k : Nat) : ((t + n) % WORD + k) % WORD = (t + (n + k)) % WORD := by
  unfold WORD
  omega

theorem chunk_bytes_cons (p : List Event × List Nat) (cs : List (List Event × List Nat)) :
    chunk_bytes (p :: cs) = p.2 ++ chunk_bytes cs := by
  simp [chunk_bytes]

theorem chunk_noise_cons (p : List Event × List Nat) (cs : List (List Event × List Nat)) :
    chunk_noise (p :: cs) = p.1 ++ chunk_noise cs := by
  simp [chunk_noise]

/-- The chunks of a message with their interruptions, none of them a `SIGTERM`. -/
theorem run_chunks (d : DaemonEnv) (hd : d.ok) (cs : List (List Event × List Nat)) :
    ∀ (t l : Nat) (s : State), chunks_ok graceful_noise cs → t < WORD → s.exit_mode ≠ 2 →
      ∃ s1, run d ⟨.in_read t l, s⟩ (cs.map chunk_events).flatten =
          ⟨.in_read ((t + (chunk_bytes cs).length) % WORD) ((chunk_bytes cs).getLastD l), s1⟩ ∧
        Frame s s1 ∧
        s1.exit_mode = if Event.signal SIGINT ∈ chunk_noise cs then 1 else s.exit_mode := by
  induction cs with
  | nil =>
    intro t l s _ ht _
    refine ⟨s, ?_, Frame.frame_refl s, by simp [chunk_noise]⟩
    simp [chunk_bytes, run_nil, Nat.mod_eq_of_lt ht]
  | cons p rest ih =>
    intro t l s hcs ht hs
    obtain ⟨hp1, hp2⟩ := hcs p (List.mem_cons_self _ _)
    have hrest : chunks_ok graceful_noise rest := fun x hx => hcs x (List.mem_cons_of_mem _ hx)
    obtain ⟨s1, h1, hf1, he1⟩ := run_read_noise d hd p.1 t l s hp1 hs
    have hs1 : s1.exit_mode ≠ 2 := by
      rw [he1]; split_ifs
      · simp
      · exact hs
    obtain ⟨s2, h2, hf2, he2⟩ := ih ((t + p.2.length) % WORD) (p.2.getLastD 0)
      { s1 with out := s1.out ++ printf_s p.2 } hrest (Nat.mod_lt _ WORD_pos) hs1
    refine ⟨s2, ?_, ?_, ?_⟩
    · rw [List.map_cons, List.flatten_cons, chunk_events, List.append_assoc, run_append, h1,
        List.singleton_append, run_cons, step_read_data d t l s1 p.2 hp2, h2,
        chunk_bytes_cons, List.length_append, add_mod_add, getLastD_append,
        getLastD_of_pos p.2 hp2.1 l 0]
    · exact hf1.frame_trans ⟨hf2.1, hf2.2, hf2.3, hf2.4⟩
    · rw [he2, chunk_noise_cons]
      simp only [he1, List.mem_append]
      by_cases ha : Event.signal SIGINT ∈ p.1 <;> by_cases hb : Event.signal SIGINT ∈ chunk_noise rest <;>
        simp [ha, hb]
theorem chunk_bytes_pos (noise : Event → Bool) (cs : List (List Event × List Nat))
    (h : chunks_ok noise cs) (hne : cs ≠ []) : 0 < (chunk_bytes cs).length := by
  cases cs with
  | nil => exact absurd rfl hne
  | cons p rest =>
    have := (h p (List.mem_cons_self _ _)).2.1
    rw [chunk_bytes_cons, List.length_append]
    omega

/-- Lines 213 to 220 for a message of `t` bytes whose last byte is `l`. -/
theorem account_bytes_spec (s : State) (t l : Nat) (ht : 0 < t) :
    account_bytes s t l =
      { s with
        out := s.out ++ (if l = NL then [] else [NL])
        bytes_count := (s.bytes_count + (t + if l = NL then 0 else 1)) % WORD } := by
  unfold account_bytes
  rw [if_pos ht]
  by_cases h : l = NL
  · simp [h]
  · simp only [ne_eq, h, not_false_eq_true, if_true, if_false]
    congr 1
    unfold WORD
    omega

theorem step_read_eof (d : DaemonEnv) (t l : Nat) (s : State) (h : s.exit_mode ≠ 2) :
    step d ⟨.in_read t l, s⟩ (.sys_read .eof) =
      ⟨.in_close_msg,
        { account_bytes s t l with msg_count := ((account_bytes s t l).msg_count + 1) % WORD }⟩ := by
  simp only [step, after_drain, if_neg h]

theorem step_open_fd (d : DaemonEnv) (s : State) :
    step d ⟨.in_open, s⟩ (.sys_open .fd) = ⟨.in_read 0 0, { s with opens := s.opens + 1 }⟩ := rfl

theorem step_close_msg (d : DaemonEnv) (s : State) :
    step d ⟨.in_close_msg, s⟩ (.sys_close 0) =
      loop_head d { s with closes := s.closes + 1 } := by
  simp [step]

theorem loop_head_running (d : DaemonEnv) (hd : d.ok) (s : State) (h : s.exit_mode = 0) :
    loop_head d s = ⟨.in_open, (external_handler d s).st⟩ := by
  simp only [loop_head, h, ne_eq, not_true_eq_false, if_false]
  rw [external_handler_ok d hd s]
  rfl

theorem loop_head_stopping (d : DaemonEnv) (s : State) (h : s.exit_mode ≠ 0) :
    loop_head d s = stopping s := by
  simp only [loop_head, if_pos h]

theorem stopping_frame (s : State) :
    (stopping s).ctl = .in_unlink ∧ Frame s (stopping s).st ∧
      (stopping s).st.exit_mode = s.exit_mode :=
  ⟨rfl, ⟨rfl, rfl, rfl, rfl⟩, rfl⟩

/-- One complete message during which ImmediateStop is never requested: the loop
counts it, and it leaves the loop afterwards exactly when a `SIGINT` arrived. -/
theorem run_delivery (d : DaemonEnv) (hd : d.ok) (m : Delivery) (s : State)
    (hm : m.complete graceful_noise) (hs : s.exit_mode = 0) :
    ∃ s1, run d ⟨.in_open, s⟩ m.events =
        ⟨if Event.signal SIGINT ∈ m.noise then .in_unlink else .in_open, s1⟩ ∧
      s1.msg_count = (s.msg_count + 1) % WORD ∧
      s1.bytes_count =
        (s.bytes_count + (m.bytes.length + if m.bytes.getLastD 0 = NL then 0 else 1)) % WORD ∧
      s1.opens = s.opens + 1 ∧ s1.closes = s.closes + 1 ∧
      s1.exit_mode = if Event.signal SIGINT ∈ m.noise then 1 else 0 := by
  obtain ⟨hpre, hcs, heof, hne, hlen⟩ := hm
  obtain ⟨s1, h1, hf1, he1⟩ := run_open_noise d hd m.pre_open s hpre hs
  have hs1 : ({ s1 with opens := s1.opens + 1 } : State).exit_mode ≠ 2 := by
    show s1.exit_mode ≠ 2
    rw [he1]; decide
  obtain ⟨s2, h2, hf2, he2⟩ := run_chunks d hd m.chunks 0 0 { s1 with opens := s1.opens + 1 }
    hcs WORD_pos hs1
  have hs2 : s2.exit_mode ≠ 2 := by
    rw [he2]; split_ifs
    · simp
    · exact hs1
  obtain ⟨s3, h3, hf3, he3⟩ := run_read_noise d hd m.pre_eof
    ((0 + (chunk_bytes m.chunks).length) % WORD) ((chunk_bytes m.chunks).getLastD 0) s2 heof hs2
  have hs3 : s3.exit_mode ≠ 2 := by
    rw [he3]; split_ifs
    · simp
    · exact hs2
  have hpos := chunk_bytes_pos graceful_noise m.chunks hcs hne
  have hlen2 : (0 + (chunk_bytes m.chunks).length) % WORD = m.bytes.length := by
    rw [Nat.zero_add]; exact Nat.mod_eq_of_lt hlen
  have hmode : s3.exit_mode = if Event.signal SIGINT ∈ m.noise then 1 else 0 := by
    rw [he3, he2]
    show (if _ then _ else (if _ then _ else s1.exit_mode)) = _
    rw [he1]
    unfold Delivery.noise
    simp only [List.mem_append]
    by_cases ha : Event.signal SIGINT ∈ chunk_noise m.chunks <;>
      by_cases hb : Event.signal SIGINT ∈ m.pre_eof <;> simp [ha, hb]
  have hev : m.events = m.pre_open ++ (.sys_open .fd :: ((m.chunks.map chunk_events).flatten
      ++ (m.pre_eof ++ [.sys_read .eof, .sys_close 0]))) := by
    simp [Delivery.events]
  have hrun : run d ⟨.in_open, s⟩ m.events =
      loop_head d
        { s3 with
          out := s3.out ++ (if m.bytes.getLastD 0 = NL then [] else [NL])
          bytes_count := (s3.bytes_count +
            (m.bytes.length + if m.bytes.getLastD 0 = NL then 0 else 1)) % WORD
          msg_count := (s3.msg_count + 1) % WORD
          closes := s3.closes + 1 } := by
    rw [hev, run_append, h1, run_cons, step_open_fd, run_append, h2, run_append, h3, run_cons,
      step_read_eof d _ _ s3 hs3, run_cons, run_nil, step_close_msg, hlen2,
      account_bytes_spec s3 _ _ (by unfold Delivery.bytes; exact hpos)]
    rfl
  rw [hrun]
  have hmsg : s3.msg_count = s.msg_count := by
    rw [hf3.msg_count, hf2.msg_count]; exact hf1.msg_count
  have hbytes : s3.bytes_count = s.bytes_count := by
    rw [hf3.bytes_count, hf2.bytes_count]; exact hf1.bytes_count
  have hopens : s3.opens = s.opens + 1 := by
    rw [hf3.opens, hf2.opens]; show s1.opens + 1 = _; rw [hf1.opens]
  have hcloses : s3.closes = s.closes := by
    rw [hf3.closes, hf2.closes]; exact hf1.closes
  by_cases hint : Event.signal SIGINT ∈ m.noise
  · rw [if_pos hint] at hmode
    rw [loop_head_stopping d _ (by show s3.exit_mode ≠ 0; rw [hmode]; decide)]
    simp only [if_pos hint]
    exact ⟨_, rfl, by simp [stopping, print_stats, hmsg], by simp [stopping, print_stats, hbytes],
      by simp [stopping, print_stats, hopens], by simp [stopping, print_stats, hcloses],
      by simp [stopping, print_stats, hmode]⟩
  · rw [if_neg hint] at hmode
    rw [loop_head_running d hd _ (by show s3.exit_mode = 0; exact hmode)]
    simp only [if_neg hint]
    refine ⟨_, rfl, ?_, ?_, ?_, ?_, ?_⟩
    · rw [(external_handler_frame d _).msg_count]; simp [hmsg]
    · rw [(external_handler_frame d _).bytes_count]; simp [hbytes]
    · rw [(external_handler_frame d _).opens]; simp [hopens]
    · rw [(external_handler_frame d _).closes]; simp [hcloses]
    · rw [external_handler_exit_mode]; exact hmode
theorem graceful_of_read_noise (e : Event) (h : read_noise e = true) :
    graceful_noise e = true ∧ e ≠ .signal SIGINT := by
  match e, h with
  | .signal sig, h =>
    simp only [read_noise, Bool.and_eq_true, bne_iff_ne, ne_eq] at h
    refine ⟨by simp [graceful_noise, h.2], ?_⟩
    intro hx
    injection hx with hx
    exact h.1 hx
  | .sys_read .eintr, _ => exact ⟨rfl, by simp⟩

theorem not_mem_flatten_of_forall {α : Type} (a : α) (ls : List (List α))
    (h : ∀ l ∈ ls, a ∉ l) : a ∉ ls.flatten := by
  intro hm
  obtain ⟨l, hl, ha⟩ := List.mem_flatten.mp hm
  exact h l hl ha

/-- A message delivered with no stop request is in particular delivered with no
ImmediateStop request, and none of its interruptions is a `SIGINT`. -/
theorem complete_graceful_of_read (m : Delivery) (h : m.complete read_noise) :
    m.complete graceful_noise ∧ Event.signal SIGINT ∉ m.noise := by
  obtain ⟨h1, h2, h3, h4, h5⟩ := h
  refine ⟨⟨h1, ?_, fun e he => (graceful_of_read_noise e (h3 e he)).1, h4, h5⟩, ?_⟩
  · intro p hp
    exact ⟨fun e he => (graceful_of_read_noise e ((h2 p hp).1 e he)).1, (h2 p hp).2⟩
  · unfold Delivery.noise chunk_noise
    rw [List.mem_append]
    rintro (hx | hx)
    · refine not_mem_flatten_of_forall _ _ ?_ hx
      intro l hl hmem
      obtain ⟨p, hp, rfl⟩ := List.mem_map.mp hl
      exact (graceful_of_read_noise _ ((h2 p hp).1 _ hmem)).2 rfl
    · exact (graceful_of_read_noise _ (h3 _ hx)).2 rfl

/-- A sequence of complete messages with no stop request: the loop is back in `open`
with both counters advanced. -/
theorem run_deliveries (d : DaemonEnv) (hd : d.ok) (ms : List Delivery) :
    ∀ s : State, (∀ m ∈ ms, m.complete read_noise) → s.exit_mode = 0 →
      s.msg_count < WORD → s.bytes_count < WORD →
      ∃ s1, run d ⟨.in_open, s⟩ (ms.map Delivery.events).flatten = ⟨.in_open, s1⟩ ∧
        s1.msg_count = (s.msg_count + ms.length) % WORD ∧
        s1.bytes_count = (s.bytes_count + (ms.map (fun m =>
          m.bytes.length + if m.bytes.getLastD 0 = NL then 0 else 1)).sum) % WORD ∧
        s1.opens = s.opens + ms.length ∧ s1.closes = s.closes + ms.length ∧
        s1.exit_mode = 0 := by
  induction ms with
  | nil =>
    intro s _ hs hm hb
    exact ⟨s, rfl, by simp [Nat.mod_eq_of_lt hm], by simp [Nat.mod_eq_of_lt hb], rfl, rfl, hs⟩
  | cons m rest ih =>
    intro s hms hs _ _
    obtain ⟨hg, hint⟩ := complete_graceful_of_read m (hms m (List.mem_cons_self _ _))
    obtain ⟨s1, h1, hm1, hb1, ho1, hc1, he1⟩ := run_delivery d hd m s hg hs
    rw [if_neg hint] at h1 he1
    obtain ⟨s2, h2, hm2, hb2, ho2, hc2, he2⟩ := ih s1
      (fun x hx => hms x (List.mem_cons_of_mem _ hx)) he1
      (by rw [hm1]; exact Nat.mod_lt _ WORD_pos) (by rw [hb1]; exact Nat.mod_lt _ WORD_pos)
    refine ⟨s2, ?_, ?_, ?_, ?_, ?_, he2⟩
    · rw [List.map_cons, List.flatten_cons, run_append, h1, h2]
    · rw [hm2, hm1, List.length_cons, add_mod_add]
      congr 1; omega
    · rw [hb2, hb1, List.map_cons, List.sum_cons, add_mod_add]
    · rw [ho2, ho1, List.length_cons]; omega
    · rw [hc2, hc1, List.length_cons]; omega

/-- A sequence of complete messages of which only the last may see a `SIGINT`, and none
a `SIGTERM`: both counters after the last `close`. -/
theorem run_deliveries_tail (d : DaemonEnv) (hd : d.ok) (ms tail : List Delivery) (s : State)
    (hms : ∀ m ∈ ms, m.complete read_noise) (htail : ∀ m ∈ tail, m.complete graceful_noise)
    (hlen : tail.length ≤ 1) (hs : s.exit_mode = 0)
    (hm : s.msg_count < WORD) (hb : s.bytes_count < WORD) :
    ∃ s1, run d ⟨.in_open, s⟩ ((ms ++ tail).map Delivery.events).flatten =
        ⟨if ∃ m ∈ tail, Event.signal SIGINT ∈ m.noise then .in_unlink else .in_open, s1⟩ ∧
      s1.msg_count = (s.msg_count + (ms ++ tail).length) % WORD ∧
      s1.bytes_count = (s.bytes_count + ((ms ++ tail).map (fun m =>
        m.bytes.length + if m.bytes.getLastD 0 = NL then 0 else 1)).sum) % WORD := by
  obtain ⟨s1, h1, hm1, hb1, _, _, he1⟩ := run_deliveries d hd ms s hms hs hm hb
  match tail, htail, hlen with
  | [], _, _ =>
    refine ⟨s1, ?_, ?_, ?_⟩
    · simpa using h1
    · simpa using hm1
    · simpa using hb1
  | [m], htail, _ =>
    obtain ⟨s2, h2, hm2, hb2, _, _, _⟩ :=
      run_delivery d hd m s1 (htail m (List.mem_singleton_self m)) he1
    refine ⟨s2, ?_, ?_, ?_⟩
    · rw [List.map_append, List.flatten_append, run_append, h1]
      simpa using h2
    · rw [hm2, hm1, List.length_append, List.length_singleton, add_mod_add]
    · rw [hb2, hb1, List.map_append, List.sum_append, add_mod_add]
      simp
  | _ :: _ :: _, _, hlen => simp at hlen

/-- C2: for every finite sequence of complete non-empty messages, each delivered through
one cycle of `open`, chunks of 1 to 1023 bytes and end of stream, with any number of
interrupted calls and signals in between, none of them `SIGTERM` and a `SIGINT` at most
during the reads of the last message, the main loop has advanced `msg_count` by the
number of messages and `bytes_count` by the sum of the lengths, each plus 1 when the
message does not end in the line terminator (both in unsigned 64-bit arithmetic, hence
exactly when the sums fit), and it waits in `open` again unless that `SIGINT` arrived. -/
theorem counters_match_messages (d : DaemonEnv) (hd : d.ok) (ms tail : List Delivery)
    (s : State) (hms : ∀ m ∈ ms, m.complete read_noise)
    (htail : ∀ m ∈ tail, m.complete graceful_noise) (hlen : tail.length ≤ 1)
    (hs : s.exit_mode = 0) (hm : s.msg_count < WORD) (hb : s.bytes_count < WORD) :
    (run d ⟨.in_open, s⟩ ((ms ++ tail).map Delivery.events).flatten).st.msg_count
      = (s.msg_count + (ms ++ tail).length) % WORD ∧
    (run d ⟨.in_open, s⟩ ((ms ++ tail).map Delivery.events).flatten).st.bytes_count
      = (s.bytes_count + ((ms ++ tail).map (fun m =>
          m.bytes.length + if m.bytes.getLastD 0 = NL then 0 else 1)).sum) % WORD ∧
    (s.msg_count + (ms ++ tail).length < WORD →
      (run d ⟨.in_open, s⟩ ((ms ++ tail).map Delivery.events).flatten).st.msg_count
        = s.msg_count + (ms ++ tail).length) ∧
    (s.bytes_count + ((ms ++ tail).map (fun m =>
          m.bytes.length + if m.bytes.getLastD 0 = NL then 0 else 1)).sum < WORD →
      (run d ⟨.in_open, s⟩ ((ms ++ tail).map Delivery.events).flatten).st.bytes_count
        = s.bytes_count + ((ms ++ tail).map (fun m =>
          m.bytes.length + if m.bytes.getLastD 0 = NL then 0 else 1)).sum) ∧
    (run d ⟨.in_open, s⟩ ((ms ++ tail).map Delivery.events).flatten).ctl
      = (if ∃ m ∈ tail, Event.signal SIGINT ∈ m.noise then .in_unlink else .in_open) := by
  obtain ⟨s1, h1, hm1, hb1⟩ := run_deliveries_tail d hd ms tail s hms htail hlen hs hm hb
  rw [h1]
  exact ⟨hm1, hb1, fun h => by rw [hm1, Nat.mod_eq_of_lt h],
    fun h => by rw [hb1, Nat.mod_eq_of_lt h], rfl⟩

/-- Witness of `counters_match_messages`: started without `-d` and with the default
interval, the message `hello` with its line terminator, written in one chunk, gives
`msg_count = 1` and `bytes_count = 6`; the messages `hi`, then `hello` with its
terminator split into two chunks with an alarm serviced in between, give `msg_count = 2`
and `bytes_count = 9`. -/
theorem counters_match_messages_witness :
    main_start env_ok false (init_state ALARM_TIME)
      = ⟨.in_open, { init_state 15 with alarms := [15] }⟩ ∧
    (run env_ok (main_start env_ok false (init_state ALARM_TIME))
      [.sys_open .fd, .sys_read (.data (str "hello\n")), .sys_read .eof, .sys_close 0]
      ).st.msg_count = 1 ∧
    (run env_ok (main_start env_ok false (init_state ALARM_TIME))
      [.sys_open .fd, .sys_read (.data (str "hello\n")), .sys_read .eof, .sys_close 0]
      ).st.bytes_count = 6 ∧
    (run env_ok (main_start env_ok false (init_state ALARM_TIME))
      [.sys_open .fd, .sys_read (.data (str "hi")), .sys_read .eof, .sys_close 0,
        .sys_open .fd, .sys_read (.data (str "hel")), .signal SIGALRM, .sys_read .eintr,
        .sys_read (.data (str "lo\n")), .sys_read .eof, .sys_close 0]
      ).st.msg_count = 2 ∧
    (run env_ok (main_start env_ok false (init_state ALARM_TIME))
      [.sys_open .fd, .sys_read (.data (str "hi")), .sys_read .eof, .sys_close 0,
        .sys_open .fd, .sys_read (.data (str "hel")), .signal SIGALRM, .sys_read .eintr,
        .sys_read (.data (str "lo\n")), .sys_read .eof, .sys_close 0]
      ).st.bytes_count = 9 := by
  have h1 := counters_match_messages env_ok (by decide)
    [⟨[], [([], str "hello\n")], []⟩] [] { init_state 15 with alarms := [15] }
    (by decide) (by decide) (by decide) rfl (by decide) (by decide)
  have h2 := counters_match_messages env_ok (by decide)
    [⟨[], [([], str "hi")], []⟩]
    [⟨[], [([], str "hel"), ([.signal SIGALRM, .sys_read .eintr], str "lo\n")], []⟩]
    { init_state 15 with alarms := [15] }
    (by decide) (by decide) (by decide) rfl (by decide) (by decide)
  exact ⟨by decide, h1.2.2.1 (by decide), h1.2.2.2.1 (by decide), h2.2.2.1 (by decide),
    h2.2.2.2.1 (by decide)⟩

/-! ## The main loop: single messages -/

/-- After the loop only the signal handler changes the process state. -/
theorem step_after_loop (d : DaemonEnv) (c : Config) (e : Event) (h : c.ctl.after_loop = true) :
    (step d c e).ctl.after_loop = true ∧ SignalFrame c.st (step d c e).st := by
  obtain ⟨ctl, s⟩ := c
  cases ctl with
  | in_unlink =>
    cases e with
    | signal sig => exact ⟨rfl, handle_signal_signal_frame sig s⟩
    | sys_unlink r =>
      simp only [step]
      split_ifs <;> exact ⟨rfl, SignalFrame.signal_refl s⟩
    | _ => exact ⟨rfl, SignalFrame.signal_refl s⟩
  | exited code => cases e <;> exact ⟨rfl, SignalFrame.signal_refl s⟩
  | stuck => cases e <;> exact ⟨rfl, SignalFrame.signal_refl s⟩
  | _ => simp [Ctl.after_loop] at h

theorem run_after_loop (d : DaemonEnv) (es : List Event) :
    ∀ c : Config, c.ctl.after_loop = true →
      (run d c es).ctl.after_loop = true ∧ SignalFrame c.st (run d c es).st := by
  induction es with
  | nil => intro c h; exact ⟨h, SignalFrame.signal_refl c.st⟩
  | cons e rest ih =>
    intro c h
    obtain ⟨h1, h2⟩ := step_after_loop d c e h
    obtain ⟨h3, h4⟩ := ih (step d c e) h1
    rw [run_cons]
    exact ⟨h3, h2.signal_trans h4⟩

/-- C1, as stated, fails: the cycle with no data leaves a changed message counter. -/
theorem empty_message_is_counted :
    ¬ (∀ s : State, s.exit_mode = 0 →
        (run env_ok ⟨.in_open, s⟩ [.sys_open .fd, .sys_read .eof]).st.msg_count = s.msg_count ∧
        (run env_ok ⟨.in_open, s⟩ [.sys_open .fd, .sys_read .eof]).st.bytes_count
          = s.bytes_count) := by
  intro h
  exact absurd (h (init_state 15) rfl).1 (by decide)

/-- C1, amended: for every state in which ImmediateStop is not requested, when `open`
returns the handle and the first `read` returns 0, nothing is echoed and `bytes_count`
is unchanged, and `msg_count` is advanced by one (in unsigned 64-bit arithmetic): the
only changes of the state up to the call of `close` are the opened handle and the
message counter. -/
theorem zero_byte_message (d : DaemonEnv) (s : State) (hs : s.exit_mode ≠ 2) :
    run d ⟨.in_open, s⟩ [.sys_open .fd, .sys_read .eof] =
      ⟨.in_close_msg, { s with opens := s.opens + 1, msg_count := (s.msg_count + 1) % WORD }⟩ := by
  rw [run_cons, step_open_fd, run_cons, run_nil,
    step_read_eof d 0 0 { s with opens := s.opens + 1 } hs]
  rfl

/-- Witness of `zero_byte_message`: from the initial state the empty message gives
`msg_count = 1`, `bytes_count = 0` and no output. -/
theorem zero_byte_message_witness :
    (init_state 15).exit_mode ≠ 2 ∧
    run env_ok ⟨.in_open, init_state 15⟩ [.sys_open .fd, .sys_read .eof] =
      ⟨.in_close_msg, { init_state 15 with opens := 1, msg_count := 1 }⟩ :=
  ⟨by decide, zero_byte_message env_ok (init_state 15) (by decide)⟩

/-- Chunks that arrive with no interruption. -/
theorem run_plain_chunks (d : DaemonEnv) (chunks : List (List Nat)) :
    ∀ (t l : Nat) (s : State),
      (∀ c ∈ chunks, 0 < c.length ∧ c.length ≤ BUFFER_SIZE - 1) → t < WORD →
      run d ⟨.in_read t l, s⟩ (chunks.map (fun c => Event.sys_read (.data c))) =
        ⟨.in_read ((t + chunks.flatten.length) % WORD) (chunks.flatten.getLastD l),
          { s with out := s.out ++ (chunks.map printf_s).flatten }⟩ := by
  induction chunks with
  | nil =>
    intro t l s _ ht
    simp [run_nil, Nat.mod_eq_of_lt ht]
  | cons c rest ih =>
    intro t l s hc ht
    have hc1 := hc c (List.mem_cons_self _ _)
    rw [List.map_cons, run_cons, step_read_data d t l s c hc1,
      ih _ _ _ (fun x hx => hc x (List.mem_cons_of_mem _ hx)) (Nat.mod_lt _ WORD_pos),
      List.flatten_cons, List.length_append, add_mod_add, getLastD_append,
      getLastD_of_pos c hc1.1 l 0]
    simp [List.append_assoc]

/-- C3: for every non-empty message, read in chunks of 1 to 1023 bytes while
ImmediateStop is not requested, the loop at end of stream has written the echo of the
chunks followed by exactly one line terminator when the last byte read is not the line
terminator and by nothing when it is, and has added to `bytes_count` the length of the
message plus 1 in the first case and plus 0 in the second. -/
theorem terminator_normalization (d : DaemonEnv) (s : State) (chunks : List (List Nat))
    (hc : ∀ c ∈ chunks, 0 < c.length ∧ c.length ≤ BUFFER_SIZE - 1) (hne : chunks ≠ [])
    (hlen : chunks.flatten.length < WORD) (hs : s.exit_mode ≠ 2) :
    run d ⟨.in_read 0 0, s⟩
        (chunks.map (fun c => Event.sys_read (.data c)) ++ [.sys_read .eof]) =
      ⟨.in_close_msg,
        { s with
          out := s.out ++ (chunks.map printf_s).flatten ++
            (if chunks.flatten.getLastD 0 = NL then [] else [NL])
          bytes_count := (s.bytes_count +
            (chunks.flatten.length + if chunks.flatten.getLastD 0 = NL then 0 else 1)) % WORD
          msg_count := (s.msg_count + 1) % WORD }⟩ := by
  have hpos : 0 < chunks.flatten.length := by
    cases chunks with
    | nil => exact absurd rfl hne
    | cons c rest =>
      have := (hc c (List.mem_cons_self _ _)).1
      rw [List.flatten_cons, List.length_append]
      omega
  rw [run_append, run_plain_chunks d chunks 0 0 s hc WORD_pos, run_cons, run_nil,
    step_read_eof d _ _ { s with out := s.out ++ (chunks.map printf_s).flatten } hs,
    Nat.zero_add, Nat.mod_eq_of_lt hlen, account_bytes_spec _ _ _ hpos]

/-- Witness of `terminator_normalization`: the message `hi` is echoed as `hi` and a line
terminator and counts 3 bytes; the message `hi` with its terminator is echoed as it is
and counts 3 bytes as well. -/
theorem terminator_normalization_witness :
    run env_ok ⟨.in_read 0 0, init_state 15⟩ [.sys_read (.data (str "hi")), .sys_read .eof] =
      ⟨.in_close_msg, { init_state 15 with out := str "hi\n", bytes_count := 3, msg_count := 1 }⟩ ∧
    run env_ok ⟨.in_read 0 0, init_state 15⟩ [.sys_read (.data (str "hi\n")), .sys_read .eof] =
      ⟨.in_close_msg, { init_state 15 with out := str "hi\n", bytes_count := 3, msg_count := 1 }⟩ :=
  ⟨terminator_normalization env_ok (init_state 15) [str "hi"] (by decide) (by decide)
      (by decide) (by decide),
    terminator_normalization env_ok (init_state 15) [str "hi\n"] (by decide) (by decide)
      (by decide) (by decide)⟩
/-- A chunk without a zero byte is echoed byte for byte. -/
theorem printf_s_of_no_zero (bytes : List Nat) (h : ∀ b ∈ bytes, b ≠ 0) :
    printf_s bytes = bytes := by
  unfold printf_s
  rw [List.takeWhile_eq_self_iff]
  intro b hb
  simpa using h b hb

/-- C4 at the chunk `a`, zero byte, `b`: the echo step writes the single byte `a`, while
the locals record 3 bytes read and `b` as the last byte; at end of stream the output is
`a` and a line terminator, and `bytes_count` is 4. -/
theorem echo_stops_at_zero_byte :
    step env_ok ⟨.in_read 0 0, init_state 15⟩ (.sys_read (.data [97, 0, 98])) =
      ⟨.in_read 3 98, { init_state 15 with out := [97] }⟩ ∧
    run env_ok ⟨.in_read 0 0, init_state 15⟩ [.sys_read (.data [97, 0, 98]), .sys_read .eof] =
      ⟨.in_close_msg, { init_state 15 with out := [97, 10], bytes_count := 4, msg_count := 1 }⟩ := by
  decide

theorem step_read_eintr_stop (d : DaemonEnv) (t l : Nat) (s : State) (h : s.exit_mode = 2) :
    step d ⟨.in_read t l, s⟩ (.sys_read .eintr) = ⟨.in_close_stop t l, s⟩ := by
  simp only [step, if_pos h]

theorem step_close_stop (d : DaemonEnv) (t l : Nat) (s : State) (r : Int) (h : s.exit_mode = 2) :
    step d ⟨.in_close_stop t l, s⟩ (.sys_close r) =
      if r < 0 then ⟨.exited EXIT_FAILURE, { s with closes := s.closes + 1 }⟩
      else stopping { s with closes := s.closes + 1 } := by
  have h2 : ({ s with closes := s.closes + 1 } : State).exit_mode = 2 := h
  simp only [step, after_drain, if_pos h2]

/-- Signals delivered during the `close` of line 193. -/
theorem run_close_stop_signals (d : DaemonEnv) (t l : Nat) (sigs : List Int) :
    ∀ s : State, run d ⟨.in_close_stop t l, s⟩ (sigs.map Event.signal) =
      ⟨.in_close_stop t l, deliver sigs s⟩ := by
  induction sigs with
  | nil => intro s; rfl
  | cons sig rest ih =>
    intro s
    rw [List.map_cons, run_cons, deliver_cons]
    exact ih (handle_signal sig s)

/-- The immediate stop when line 209 still reads 2: for every state with `exit_mode = 2`,
every number `t` of bytes already read and every last byte `l`, an interrupted `read`
makes the loop call `close`; when the signals delivered during that call leave
`exit_mode = 2` and `close` succeeds, control is at `unlink`, only the final lines
`exiting` and the statistics have been printed, `msg_count` and `bytes_count` are
unchanged, one handle was closed and none opened, and nothing later changes that. -/
theorem immediate_stop_while_mode_kept (d : DaemonEnv) (s : State) (t l : Nat)
    (sigs : List Int) (r : Int) (hs : s.exit_mode = 2) (hk : (deliver sigs s).exit_mode = 2) :
    run d ⟨.in_read t l, s⟩ (.sys_read .eintr :: (sigs.map Event.signal ++ [.sys_close r])) =
      (if r < 0 then
        ⟨.exited EXIT_FAILURE, { deliver sigs s with closes := (deliver sigs s).closes + 1 }⟩
       else stopping { deliver sigs s with closes := (deliver sigs s).closes + 1 }) ∧
    ∀ es : List Event,
      (run d ⟨.in_read t l, s⟩
        (.sys_read .eintr :: (sigs.map Event.signal ++ [.sys_close r]) ++ es)).ctl.after_loop
          = true ∧
      (run d ⟨.in_read t l, s⟩
        (.sys_read .eintr :: (sigs.map Event.signal ++ [.sys_close r]) ++ es)).st.msg_count
          = s.msg_count ∧
      (run d ⟨.in_read t l, s⟩
        (.sys_read .eintr :: (sigs.map Event.signal ++ [.sys_close r]) ++ es)).st.bytes_count
          = s.bytes_count ∧
      (run d ⟨.in_read t l, s⟩
        (.sys_read .eintr :: (sigs.map Event.signal ++ [.sys_close r]) ++ es)).st.opens
          = s.opens ∧
      (run d ⟨.in_read t l, s⟩
        (.sys_read .eintr :: (sigs.map Event.signal ++ [.sys_close r]) ++ es)).st.closes
          = s.closes + 1 := by
  have hf := deliver_signal_frame sigs s
  have h1 : run d ⟨.in_read t l, s⟩
      (.sys_read .eintr :: (sigs.map Event.signal ++ [.sys_close r])) =
      (if r < 0 then
        ⟨.exited EXIT_FAILURE, { deliver sigs s with closes := (deliver sigs s).closes + 1 }⟩
       else stopping { deliver sigs s with closes := (deliver sigs s).closes + 1 }) := by
    rw [run_cons, step_read_eintr_stop d t l s hs, run_append, run_close_stop_signals,
      run_cons, run_nil, step_close_stop d t l _ r hk]
  refine ⟨h1, ?_⟩
  intro es
  rw [run_append, h1]
  split_ifs
  · obtain ⟨g1, g2⟩ := run_after_loop d es
      ⟨.exited EXIT_FAILURE, { deliver sigs s with closes := (deliver sigs s).closes + 1 }⟩ rfl
    exact ⟨g1, g2.msg_count.trans hf.msg_count, g2.bytes_count.trans hf.bytes_count,
      g2.opens.trans hf.opens, g2.closes.trans (by rw [← hf.closes])⟩
  · obtain ⟨g1, g2⟩ := run_after_loop d es
      (stopping { deliver sigs s with closes := (deliver sigs s).closes + 1 }) rfl
    exact ⟨g1, g2.msg_count.trans hf.msg_count, g2.bytes_count.trans hf.bytes_count,
      g2.opens.trans hf.opens, g2.closes.trans (by rw [← hf.closes]; rfl)⟩

/-- C5 at the run interrupted `read`, `SIGINT` during `close`, `close` returns 0, started
with `exit_mode = 2` after one counted message of 6 bytes and 3 bytes of the next one:
line 209 reads `exit_mode` again and finds 1, so the partial message gets its line
terminator and is counted (`msg_count` from 1 to 2, `bytes_count` from 6 to 10) and the
loop calls `close` on the handle a second time; when that call fails the process exits
with `EXIT_FAILURE`, and the stopping path is never taken.  The same run without the
`SIGINT` takes the stopping path with the counters at 1 and 6. -/
theorem immediate_stop_undone_by_sigint :
    (handle_signal SIGTERM mid_message).exit_mode = 2 ∧
    run env_ok ⟨.in_read 3 99, handle_signal SIGTERM mid_message⟩
        [.sys_read .eintr, .signal SIGINT, .sys_close 0] =
      ⟨.in_close_msg,
        { mid_message with
          exit_mode := 1
          msg_count := 2
          bytes_count := 10
          closes := 2
          out := str "hello\nabc\n" }⟩ ∧
    run env_ok ⟨.in_read 3 99, handle_signal SIGTERM mid_message⟩
        [.sys_read .eintr, .signal SIGINT, .sys_close 0, .sys_close (-1)] =
      ⟨.exited EXIT_FAILURE,
        { mid_message with
          exit_mode := 1
          msg_count := 2
          bytes_count := 10
          closes := 3
          out := str "hello\nabc\n" }⟩ ∧
    run env_ok ⟨.in_read 3 99, handle_signal SIGTERM mid_message⟩
        [.sys_read .eintr, .sys_close 0] =
      ⟨.in_unlink,
        { mid_message with
          exit_mode := 2
          closes := 2
          out := str "hello\nabcexiting\nmsg: 1, bytes: 6, alarm count: 0\n" }⟩ := by
  decide

/-! ## The main loop: graceful stop -/

theorem step_read_eintr_no_flag (d : DaemonEnv) (t l : Nat) (s : State)
    (hf : s.no_flag) (h : s.exit_mode ≠ 2) :
    step d ⟨.in_read t l, s⟩ (.sys_read .eintr) = ⟨.in_read t l, s⟩ := by
  simp only [step, if_neg h, external_handler_no_flag d s hf]

/-- Interrupted reads that carry only `SIGINT`, with no flag pending: nothing changes
but `exit_mode`. -/
theorem run_sigint_noise (d : DaemonEnv) (nz : List Event) (t l : Nat) :
    ∀ s : State, (∀ e ∈ nz, sigint_noise e = true) → s.no_flag → s.exit_mode ≠ 2 →
      run d ⟨.in_read t l, s⟩ nz =
        ⟨.in_read t l,
          { s with exit_mode := if Event.signal SIGINT ∈ nz then 1 else s.exit_mode }⟩ := by
  induction nz with
  | nil => intro s _ _ _; simp [run_nil]
  | cons e rest ih =>
    intro s hnz hf hs
    have he := hnz e (List.mem_cons_self _ _)
    have hrest : ∀ x ∈ rest, sigint_noise x = true :=
      fun x hx => hnz x (List.mem_cons_of_mem _ hx)
    rw [run_cons]
    match e, he with
    | .signal sig, he =>
      simp only [sigint_noise, beq_iff_eq] at he
      subst he
      rw [step_read_signal, handle_signal_sigint,
        ih { s with exit_mode := 1 } hrest hf (by simp)]
      simp
    | .sys_read .eintr, _ =>
      rw [step_read_eintr_no_flag d t l s hf hs, ih s hrest hf hs]
      simp

/-- The chunks of a message whose interruptions carry only `SIGINT`, with no flag
pending: the echo of the chunks is the only output. -/
theorem run_chunks_sigint (d : DaemonEnv) (cs : List (List Event × List Nat)) :
    ∀ (t l : Nat) (s : State), chunks_ok sigint_noise cs → t < WORD → s.no_flag →
      s.exit_mode ≠ 2 →
      run d ⟨.in_read t l, s⟩ (cs.map chunk_events).flatten =
        ⟨.in_read ((t + (chunk_bytes cs).length) % WORD) ((chunk_bytes cs).getLastD l),
          { s with
            exit_mode := if Event.signal SIGINT ∈ chunk_noise cs then 1 else s.exit_mode
            out := s.out ++ (cs.map (fun p => printf_s p.2)).flatten }⟩ := by
  induction cs with
  | nil =>
    intro t l s _ ht _ _
    simp [chunk_bytes, chunk_noise, run_nil, Nat.mod_eq_of_lt ht]
  | cons p rest ih =>
    intro t l s hcs ht hf hs
    obtain ⟨hp1, hp2⟩ := hcs p (List.mem_cons_self _ _)
    have hrest : chunks_ok sigint_noise rest := fun x hx => hcs x (List.mem_cons_of_mem _ hx)
    have hs1 : (if Event.signal SIGINT ∈ p.1 then (1 : Int) else s.exit_mode) ≠ 2 := by
      split_ifs
      · simp
      · exact hs
    have key := ih ((t + p.2.length) % WORD) (p.2.getLastD 0)
      { s with
        exit_mode := if Event.signal SIGINT ∈ p.1 then 1 else s.exit_mode
        out := s.out ++ printf_s p.2 }
      hrest (Nat.mod_lt _ WORD_pos) hf hs1
    rw [List.map_cons, List.flatten_cons, chunk_events, List.append_assoc, run_append,
      run_sigint_noise d p.1 t l s hp1 hf hs, List.singleton_append, run_cons,
      step_read_data d t l _ p.2 hp2]
    simp only [] at key ⊢
    rw [key, chunk_bytes_cons, List.length_append, add_mod_add, getLastD_append,
      getLastD_of_pos p.2 hp2.1 l 0, chunk_noise_cons]
    simp only [List.mem_append, List.map_cons, List.flatten_cons, List.append_assoc]
    by_cases ha : Event.signal SIGINT ∈ p.1 <;>
      by_cases hb : Event.signal SIGINT ∈ chunk_noise rest <;> simp [ha, hb]
theorem loop_head_no_flag (d : DaemonEnv) (s : State) (hf : s.no_flag) (h : s.exit_mode = 0) :
    loop_head d s = ⟨.in_open, s⟩ := by
  simp only [loop_head, h, ne_eq, not_true_eq_false, if_false, external_handler_no_flag d s hf]

/-- One complete message whose interruptions carry only `SIGINT`, read with no flag
pending: the state with which the loop test is reached again. -/
theorem run_delivery_sigint (d : DaemonEnv) (m : Delivery) (s : State)
    (hm : m.complete sigint_noise) (hpre : m.pre_open = []) (hf : s.no_flag)
    (hs : s.exit_mode = 0) :
    run d ⟨.in_open, s⟩ m.events =
      loop_head d
        { s with
          exit_mode := if Event.signal SIGINT ∈ m.noise then 1 else 0
          out := s.out ++ (m.chunks.map (fun p => printf_s p.2)).flatten ++
            (if m.bytes.getLastD 0 = NL then [] else [NL])
          bytes_count := (s.bytes_count +
            (m.bytes.length + if m.bytes.getLastD 0 = NL then 0 else 1)) % WORD
          msg_count := (s.msg_count + 1) % WORD
          opens := s.opens + 1
          closes := s.closes + 1 } := by
  obtain ⟨_, hcs, heof, hne, hlen⟩ := hm
  have hpos := chunk_bytes_pos sigint_noise m.chunks hcs hne
  have hev : m.events = .sys_open .fd :: ((m.chunks.map chunk_events).flatten
      ++ (m.pre_eof ++ [.sys_read .eof, .sys_close 0])) := by
    simp [Delivery.events, hpre]
  have hs0 : ({ s with opens := s.opens + 1 } : State).exit_mode ≠ 2 := by
    show s.exit_mode ≠ 2
    rw [hs]; decide
  have h2 := run_chunks_sigint d m.chunks 0 0 { s with opens := s.opens + 1 } hcs WORD_pos hf hs0
  have hs2 : (if Event.signal SIGINT ∈ chunk_noise m.chunks then (1 : Int) else s.exit_mode)
      ≠ 2 := by
    rw [hs]; split_ifs <;> decide
  have h3 := run_sigint_noise d m.pre_eof ((0 + (chunk_bytes m.chunks).length) % WORD)
    ((chunk_bytes m.chunks).getLastD 0)
    { s with
      opens := s.opens + 1
      exit_mode := if Event.signal SIGINT ∈ chunk_noise m.chunks then 1 else s.exit_mode
      out := s.out ++ (m.chunks.map (fun p => printf_s p.2)).flatten }
    heof hf hs2
  have hs3 : (if Event.signal SIGINT ∈ m.pre_eof then (1 : Int)
      else if Event.signal SIGINT ∈ chunk_noise m.chunks then 1 else s.exit_mode) ≠ 2 := by
    rw [hs]; split_ifs <;> decide
  have h4 := step_read_eof d ((0 + (chunk_bytes m.chunks).length) % WORD)
    ((chunk_bytes m.chunks).getLastD 0)
    { s with
      opens := s.opens + 1
      exit_mode := if Event.signal SIGINT ∈ m.pre_eof then 1
        else if Event.signal SIGINT ∈ chunk_noise m.chunks then 1 else s.exit_mode
      out := s.out ++ (m.chunks.map (fun p => printf_s p.2)).flatten }
    hs3
  have hlen2 : (0 + (chunk_bytes m.chunks).length) % WORD = (chunk_bytes m.chunks).length := by
    rw [Nat.zero_add]; exact Nat.mod_eq_of_lt hlen
  simp only [] at h2 h3 h4
  rw [hev, run_cons, step_open_fd, run_append, h2, run_append, h3, run_cons, h4, run_cons,
    run_nil, step_close_msg, hlen2, account_bytes_spec _ _ _ hpos]
  unfold Delivery.noise Delivery.bytes
  simp only [hs, List.mem_append]
  by_cases ha : Event.signal SIGINT ∈ chunk_noise m.chunks <;>
    by_cases hb : Event.signal SIGINT ∈ m.pre_eof <;> simp [ha, hb]
theorem quiet_bytes (m : Delivery) : m.quiet.bytes = m.bytes := by
  simp [Delivery.quiet, Delivery.bytes, chunk_bytes, List.map_map, Function.comp_def]

theorem quiet_noise (m : Delivery) : m.quiet.noise = [] := by
  simp [Delivery.quiet, Delivery.noise, chunk_noise, List.map_map, Function.comp_def]

theorem quiet_echo (m : Delivery) :
    (m.quiet.chunks.map (fun p => printf_s p.2)).flatten =
      (m.chunks.map (fun p => printf_s p.2)).flatten := by
  simp [Delivery.quiet, List.map_map, Function.comp_def]

/-- The delivery without interruptions is complete for every kind of interruption. -/
theorem quiet_complete (noise noise1 : Event → Bool) (m : Delivery) (h : m.complete noise) :
    m.quiet.complete noise1 := by
  obtain ⟨_, h2, _, h4, h5⟩ := h
  refine ⟨by simp [Delivery.quiet], ?_, by simp [Delivery.quiet], ?_, ?_⟩
  · intro p hp
    simp only [Delivery.quiet, List.mem_map] at hp
    obtain ⟨q, hq, rfl⟩ := hp
    exact ⟨by simp, (h2 q hq).2⟩
  · simpa [Delivery.quiet] using h4
  · rw [quiet_bytes]; exact h5

/-- C6: when `SIGINT` arrives while a message is being read and `SIGTERM` never does,
the loop reads on to the end of the stream, counts the message exactly as the same
message read without any signal is counted (`msg_count` plus 1, `bytes_count` plus the
length, plus 1 when the message does not end in the line terminator), and then leaves
the loop for `unlink`; no handle is opened afterwards, and later events change nothing
but what the signal handler writes.  When the interrupted reads carry
only `SIGINT` and no flag is pending, the output is the output of the run without signal
followed by the final lines of the stopping path.  When `SIGINT` arrives during the wait
in `open`, the interrupted `open` leads to the stopping path with every counter
unchanged. -/
theorem graceful_stop_finishes_message :
    (∀ (d : DaemonEnv) (m : Delivery) (s : State), d.ok → m.complete graceful_noise →
      Event.signal SIGINT ∈ m.noise → s.exit_mode = 0 →
      (run d ⟨.in_open, s⟩ m.events).ctl = .in_unlink ∧
      (run d ⟨.in_open, s⟩ m.events).st.exit_mode = 1 ∧
      (run d ⟨.in_open, s⟩ m.events).st.msg_count = (s.msg_count + 1) % WORD ∧
      (run d ⟨.in_open, s⟩ m.events).st.bytes_count = (s.bytes_count +
        (m.bytes.length + if m.bytes.getLastD 0 = NL then 0 else 1)) % WORD ∧
      (run d ⟨.in_open, s⟩ m.quiet.events).ctl = .in_open ∧
      (run d ⟨.in_open, s⟩ m.events).st.msg_count
        = (run d ⟨.in_open, s⟩ m.quiet.events).st.msg_count ∧
      (run d ⟨.in_open, s⟩ m.events).st.bytes_count
        = (run d ⟨.in_open, s⟩ m.quiet.events).st.bytes_count ∧
      ∀ es : List Event,
        (run d ⟨.in_open, s⟩ (m.events ++ es)).ctl.after_loop = true ∧
        (run d ⟨.in_open, s⟩ (m.events ++ es)).st.opens = s.opens + 1 ∧
        SignalFrame (run d ⟨.in_open, s⟩ m.events).st
          (run d ⟨.in_open, s⟩ (m.events ++ es)).st) ∧
    (∀ (d : DaemonEnv) (m : Delivery) (s : State), m.complete sigint_noise →
      m.pre_open = [] → Event.signal SIGINT ∈ m.noise → s.no_flag → s.exit_mode = 0 →
      (run d ⟨.in_open, s⟩ m.quiet.events).st.out =
        s.out ++ (m.chunks.map (fun p => printf_s p.2)).flatten ++
          (if m.bytes.getLastD 0 = NL then [] else [NL]) ∧
      (run d ⟨.in_open, s⟩ m.events).st.out =
        (run d ⟨.in_open, s⟩ m.quiet.events).st.out ++ str "exiting\n" ++
          stats_line ((s.msg_count + 1) % WORD)
            ((s.bytes_count + (m.bytes.length + if m.bytes.getLastD 0 = NL then 0 else 1)) % WORD)
            s.alarm_count) ∧
    (∀ (d : DaemonEnv) (s : State),
      run d ⟨.in_open, s⟩ [.signal SIGINT, .sys_open .eintr] =
        ⟨.in_unlink,
          { s with
            exit_mode := 1
            out := s.out ++ str "exiting\n" ++
              stats_line s.msg_count s.bytes_count s.alarm_count }⟩) := by
  refine ⟨?_, ?_, ?_⟩
  · intro d m s hd hm hint hs
    obtain ⟨s1, h1, hm1, hb1, ho1, _, he1⟩ := run_delivery d hd m s hm hs
    rw [if_pos hint] at h1 he1
    obtain ⟨s2, h2, hm2, hb2, _, _, _⟩ := run_delivery d hd m.quiet s
      (quiet_complete graceful_noise graceful_noise m hm) hs
    rw [quiet_noise] at h2
    rw [quiet_bytes] at hb2
    simp only [List.not_mem_nil, if_false] at h2
    rw [h1, h2]
    refine ⟨rfl, he1, hm1, hb1, rfl, hm1.trans hm2.symm, hb1.trans hb2.symm, ?_⟩
    intro es
    obtain ⟨g1, g2⟩ := run_after_loop d es ⟨.in_unlink, s1⟩ rfl
    rw [run_append, h1]
    exact ⟨g1, g2.opens.trans ho1, g2⟩
  · intro d m s hm hpre hint hf hs
    have h1 := run_delivery_sigint d m s hm hpre hf hs
    have h2 := run_delivery_sigint d m.quiet s (quiet_complete sigint_noise sigint_noise m hm)
      rfl hf hs
    rw [if_pos hint, loop_head_stopping d _ (by simp)] at h1
    rw [quiet_noise, quiet_bytes, quiet_echo] at h2
    simp only [List.not_mem_nil, if_false] at h2
    rw [loop_head_no_flag d] at h2
    · rw [h1, h2]
      exact ⟨rfl, rfl⟩
    · exact hf
    · rfl
  · intro d s
    rw [run_cons, step_open_signal, handle_signal_sigint, run_cons, run_nil]
    simp only [step]
    rw [loop_head_stopping d _ (by simp)]
    rfl

/-- Witness of `graceful_stop_finishes_message`: `SIGINT` interrupts the read between
the two chunks of the message `hello` with its terminator; the message is echoed and
counted (1 message, 6 bytes) and the loop is left. -/
theorem graceful_stop_finishes_message_witness :
    run env_ok ⟨.in_open, init_state 15⟩
        [.sys_open .fd, .sys_read (.data (str "he")), .signal SIGINT, .sys_read .eintr,
          .sys_read (.data (str "llo\n")), .sys_read .eof, .sys_close 0] =
      ⟨.in_unlink,
        { init_state 15 with
          exit_mode := 1
          msg_count := 1
          bytes_count := 6
          opens := 1
          closes := 1
          out := str "hello\nexiting\nmsg: 1, bytes: 6, alarm count: 0\n" }⟩ ∧
    (run env_ok ⟨.in_open, init_state 15⟩
        (Delivery.events ⟨[], [([], str "he"),
          ([.signal SIGINT, .sys_read .eintr], str "llo\n")], []⟩)).st.msg_count = 1 ∧
    (run env_ok ⟨.in_open, init_state 15⟩
        (Delivery.events ⟨[], [([], str "he"),
          ([.signal SIGINT, .sys_read .eintr], str "llo\n")], []⟩)).st.out =
      str "hello\n" ++ str "exiting\n" ++ stats_line 1 6 0 := by
  have h1 := graceful_stop_finishes_message.1 env_ok
    ⟨[], [([], str "he"), ([.signal SIGINT, .sys_read .eintr], str "llo\n")], []⟩
    (init_state 15) (by decide) (by decide) (by decide) rfl
  have h2 := graceful_stop_finishes_message.2.1 env_ok
    ⟨[], [([], str "he"), ([.signal SIGINT, .sys_read .eintr], str "llo\n")], []⟩
    (init_state 15) (by decide) rfl (by decide) (by decide) rfl
  refine ⟨by decide, h1.2.2.1, ?_⟩
  rw [h2.2, h2.1]
  decide


end EchoServer
